import Mathlib

/-!
# library_auth: asynchronous command dispatch

A shallow embedding of the startup code (`pkg/app/app.go`, `pkg/app/handler.go`) and of the
HTTP mutation handlers (`api/handlers/user.go`).

Go functions that talk to collaborators (the Kafka consumer manager, the Kafka producer, gin,
the JSON encoder, the password hasher, the domain services, the loggers) are embedded as
programs: trees whose nodes are the calls the function makes, each with a continuation that
receives the value the call returned.  A program is run against an arbitrary stateful
environment that answers the calls; the run records every call with its answer.
-/

namespace LibraryAuth

/-! ## Go errors and formatted messages -/

/-- A Go `error` value.  `ErrConsumerAlreadyExists` is the sentinel of the consumer package;
every other error is told apart from it by `==`. -/
inductive Error : Type where
  | ErrConsumerAlreadyExists
  | other (msg : String)
  deriving DecidableEq, Repr

/-- An argument of a `log` call. -/
inductive LogArg : Type where
  | err (e : Error)
  | str (s : String)
  deriving DecidableEq, Repr

/-- The string `fmt.Sprintf(format, args...)`, kept as its format and its arguments. -/
structure Formatted : Type where
  format : String
  args : List LogArg
  deriving DecidableEq, Repr

/-! ## Programs over external calls -/

/-- A Go function body: it returns, calls a collaborator and continues with the answer,
or panics. -/
inductive Prog (C : Type) (R : C → Type) (α : Type) : Type where
  | ret (a : α) : Prog C R α
  | call (c : C) (k : R c → Prog C R α) : Prog C R α
  | panic (msg : Formatted) : Prog C R α

namespace Prog

variable {C : Type} {R : C → Type} {α β σ : Type}

/-- Sequencing of two programs. -/
def bind : Prog C R α → (α → Prog C R β) → Prog C R β
  | .ret a, f => f a
  | .call c k, f => .call c (fun r => (k r).bind f)
  | .panic msg, _ => .panic msg

instance : Monad (Prog C R) where
  pure := Prog.ret
  bind := Prog.bind

/-- A single call, returning its answer. -/
def perform (c : C) : Prog C R (R c) := .call c .ret

end Prog

/-- How a Go function ends. -/
inductive Outcome (α : Type) : Type where
  | returned (a : α)
  | panicked (msg : Formatted)
  deriving DecidableEq, Repr

/-- One recorded call: the call and the answer it got. -/
structure Event (C : Type) (R : C → Type) : Type where
  call : C
  resp : R call

/-- The result of running a program: how it ended, the final environment state, the calls it
made in order, and the environment state after each of them. -/
structure Execution (C : Type) (R : C → Type) (σ α : Type) : Type where
  outcome : Outcome α
  final : σ
  trace : List (Event C R)
  states : List σ

/-- An environment: it answers every call and moves to a new state. -/
abbrev World (C : Type) (R : C → Type) (σ : Type) : Type := (c : C) → σ → R c × σ

/-- Run a program against an environment from an initial state. -/
def Prog.run {C : Type} {R : C → Type} {α σ : Type} (w : World C R σ) :
    Prog C R α → σ → Execution C R σ α
  | .ret a, s => ⟨.returned a, s, [], []⟩
  | .call c k, s =>
    let rest := (k (w c s).1).run w (w c s).2
    ⟨rest.outcome, rest.final, ⟨c, (w c s).1⟩ :: rest.trace, (w c s).2 :: rest.states⟩
  | .panic msg, s => ⟨.panicked msg, s, [], []⟩

/-- The postcondition `Q` holds of the run of `p` from `s`, its trace put after the calls `pre`
made before it. -/
def Prog.After {C : Type} {R : C → Type} {α σ : Type} (W : World C R σ) (p : Prog C R α)
    (s : σ) (pre : List (Event C R)) (Q : Outcome α → σ → List (Event C R) → Prop) : Prop :=
  Q (p.run W s).outcome (p.run W s).final (pre ++ (p.run W s).trace)

/-! ## Shared Go values -/

/-- The postgres storage handle. -/
structure Storage where
  id : Nat
  deriving DecidableEq, Repr

/-- Go `service.AuthService` (`service/auth.go`). -/
structure AuthService where
  storage : Option Storage
  deriving DecidableEq, Repr

/-- Go `service.NewAuthService`. -/
def NewAuthService (storage : Option Storage) : AuthService := { storage := storage }

/-- Go `service.UserService`: a handle, obtained from `service.NewUserService`. -/
structure UserService where
  id : Nat
  deriving DecidableEq, Repr

/-- The handler values of the consumer package, as `Reader` builds them. -/
inductive MessageHandler : Type where
  | UserRegisterHandler (authService : AuthService)
  | UserEditProfileHandler (userService : UserService)
  | UserEditPasswordHandler (userService : UserService)
  | UserEditSettingHandler (userService : UserService)
  deriving DecidableEq, Repr

/-- A `*kafka.KafkaConsumerManager`: a reference to a manager. -/
structure KafkaConsumerManager where
  ref : Nat
  deriving DecidableEq, Repr

/-- The kafka producer value returned by `NewKafkaProducer`. -/
structure KafkaProducer where
  id : Nat
  deriving DecidableEq, Repr

/-- A `*redis.Client`. -/
structure RedisClient where
  Addr : String
  Password : String
  DB : Nat
  deriving DecidableEq, Repr

/-- The part of `config.Config` that `Run` reads. -/
structure Config where
  AUTH_PORT : String
  deriving DecidableEq, Repr

/-- Go `handlers.Handlers` (`api/handlers/handlers.go`). -/
structure Handlers where
  Auth : AuthService
  User : UserService
  RDB : RedisClient
  Producer : KafkaProducer
  deriving DecidableEq, Repr

/-- Go `handlers.NewHandler`. -/
def NewHandler (auth : AuthService) (user : UserService) (rdb : RedisClient)
    (pr : KafkaProducer) : Handlers :=
  { Auth := auth, User := user, RDB := rdb, Producer := pr }

/-- The gin engine returned by `api.Engine`. -/
structure Router where
  handlers : Handlers
  deriving DecidableEq, Repr

/-! ## Package `app` -/

/-- The arguments of one `kcm.RegisterConsumer(brokers, topic, group, handler)` call. -/
structure RegisterArgs where
  kcm : KafkaConsumerManager
  brokers : List String
  topic : String
  group : String
  handler : MessageHandler
  deriving DecidableEq, Repr

/-- The calls package `app` makes to its collaborators. -/
inductive AppCall : Type where
  | NewPostgresStorage (cfg : Config)
  | logPrintf (format : String) (args : List LogArg)
  | logPrintln (args : List LogArg)
  | NewUserService (db : Option Storage)
  | redisNewClient (Addr Password : String) (DB : Nat)
  | redisPing (rdb : RedisClient)
  | NewKafkaConsumerManager
  | NewKafkaProducer (brokers : List String)
  | RegisterConsumer (args : RegisterArgs)
  | slogWarn (msg : String)
  | slogError (msg : String) (key : String) (err : Error)
  | apiEngine (h : Handlers)
  | SetTrustedProxies (router : Router)
  | routerRun (router : Router) (port : String)
  deriving DecidableEq, Repr

/-- What each call of package `app` returns. -/
@[reducible]
def AppResp : AppCall → Type
  | .NewPostgresStorage _ => Option Storage × Option Error
  | .logPrintf _ _ => Unit
  | .logPrintln _ => Unit
  | .NewUserService _ => UserService
  | .redisNewClient _ _ _ => RedisClient
  | .redisPing _ => Option Error
  | .NewKafkaConsumerManager => KafkaConsumerManager
  | .NewKafkaProducer _ => KafkaProducer × Option Error
  | .RegisterConsumer _ => Option Error
  | .slogWarn _ => Unit
  | .slogError _ _ _ => Unit
  | .apiEngine _ => Router
  | .SetTrustedProxies _ => Unit
  | .routerRun _ _ => Option Error

/-- Programs of package `app`. -/
abbrev App (α : Type) : Type := Prog AppCall AppResp α

/-- One `if err := kcm.RegisterConsumer(...); err != nil { ... }` block of `Reader`. -/
def registerBlock (args : RegisterArgs) : App Unit := do
  let err ← Prog.perform (AppCall.RegisterConsumer args)
  match err with
  | none => pure ()
  | some err =>
    if err = Error.ErrConsumerAlreadyExists then
      Prog.perform (AppCall.slogWarn ("Consumer for topic '" ++ args.topic ++ "' already exists"))
    else
      Prog.perform (AppCall.slogError "Error registering consumer: %v" "err" err)

/-- Go `app.Reader` (`pkg/app/handler.go`). -/
def Reader (brokers : List String) (kcm : KafkaConsumerManager) (authService : AuthService)
    (userService : UserService) : App Unit := do
  registerBlock ⟨kcm, brokers, "reg-user", "auth", .UserRegisterHandler authService⟩
  registerBlock ⟨kcm, brokers, "upd-user", "auth", .UserEditProfileHandler userService⟩
  registerBlock ⟨kcm, brokers, "upd-pass", "auth", .UserEditPasswordHandler userService⟩
  registerBlock ⟨kcm, brokers, "upd-setting", "auth", .UserEditSettingHandler userService⟩

/-- Go `log.Panicf(format, err)`: print the formatted message, then panic with it. -/
def logPanicf {α : Type} (format : String) (err : Error) : App α := do
  Prog.perform (AppCall.logPrintf format [.err err])
  Prog.panic ⟨format, [.err err]⟩

/-- Go `app.Run` (`pkg/app/app.go`). -/
def Run (cfg : Config) : App Unit := do
  let (db, err) ← Prog.perform (AppCall.NewPostgresStorage cfg)
  (match err with
    | some err => Prog.perform (AppCall.logPrintf "can't connect to db: %v" [.err err])
    | none => pure ())
  Prog.perform (AppCall.logPrintln [.str "Connected to Postgres"])
  let authService := NewAuthService db
  let userService ← Prog.perform (AppCall.NewUserService db)
  -- Redis Connection
  let rdb ← Prog.perform (AppCall.redisNewClient "redis:6379" "" 0)
  match ← Prog.perform (AppCall.redisPing rdb) with
  | some err => logPanicf "Failed to connect to Redis: %v" err
  | none =>
    Prog.perform (AppCall.logPrintln [.str "Connected to Redis"])
    -- Kafka
    let brokers := ["kafka:9092"]
    let cm ← Prog.perform AppCall.NewKafkaConsumerManager
    let (pr, err) ← Prog.perform (AppCall.NewKafkaProducer brokers)
    match err with
    | some err =>
      Prog.perform (AppCall.logPrintln [.str "Failed to create Kafka producer:", .err err])
    | none =>
      Reader brokers cm authService userService
      -- HTTP Server
      let h := NewHandler authService userService rdb pr
      let router ← Prog.perform (AppCall.apiEngine h)
      Prog.perform (AppCall.SetTrustedProxies router)
      match ← Prog.perform (AppCall.routerRun router cfg.AUTH_PORT) with
      | some err => logPanicf "can't start server: %v" err
      | none =>
        Prog.perform (AppCall.logPrintf "REST server started on port %s" [.str cfg.AUTH_PORT])

/-! ## Observing a run of package `app` -/

/-- The `RegisterConsumer` calls of a run, in order. -/
def registerCalls (t : List (Event AppCall AppResp)) : List RegisterArgs :=
  t.filterMap fun ev =>
    match ev.call with
    | .RegisterConsumer args => some args
    | _ => none

/-- The four registrations `Reader` is written to make. -/
def readerCalls (brokers : List String) (kcm : KafkaConsumerManager) (authService : AuthService)
    (userService : UserService) : List RegisterArgs :=
  [⟨kcm, brokers, "reg-user", "auth", .UserRegisterHandler authService⟩,
   ⟨kcm, brokers, "upd-user", "auth", .UserEditProfileHandler userService⟩,
   ⟨kcm, brokers, "upd-pass", "auth", .UserEditPasswordHandler userService⟩,
   ⟨kcm, brokers, "upd-setting", "auth", .UserEditSettingHandler userService⟩]

/-- The `RegisterConsumer` calls of a run with the error each returned, in order. -/
def registrations (t : List (Event AppCall AppResp)) : List (RegisterArgs × Option Error) :=
  t.filterMap fun ev =>
    match ev with
    | ⟨.RegisterConsumer args, err⟩ => some (args, err)
    | _ => none

/-- The errors `rdb.Ping` returned during a run. -/
def pingErrors (t : List (Event AppCall AppResp)) : List Error :=
  t.filterMap fun ev =>
    match ev with
    | ⟨.redisPing _, err⟩ => err
    | _ => none

/-- The errors `NewKafkaProducer` returned during a run. -/
def producerErrors (t : List (Event AppCall AppResp)) : List Error :=
  t.filterMap fun ev =>
    match ev with
    | ⟨.NewKafkaProducer _, (_, err)⟩ => err
    | _ => none

/-- The number of `NewKafkaConsumerManager` calls of a run. -/
def managersCreated (t : List (Event AppCall AppResp)) : Nat :=
  (t.filter fun ev =>
    match ev.call with
    | .NewKafkaConsumerManager => true
    | _ => false).length

/-- The `slog` calls of a run, in order. -/
def slogCalls (t : List (Event AppCall AppResp)) : List AppCall :=
  (t.map fun ev => ev.call).filter fun c =>
    match c with
    | .slogWarn _ => true
    | .slogError _ _ _ => true
    | _ => false

/-- The `slog` line `Reader` writes for a registration of `topic` that returned `err`. -/
def slogFor (topic : String) : Option Error → List AppCall
  | none => []
  | some .ErrConsumerAlreadyExists =>
    [.slogWarn ("Consumer for topic '" ++ topic ++ "' already exists")]
  | some (.other msg) => [.slogError "Error registering consumer: %v" "err" (.other msg)]

/-- An answer for a call when the environment has nothing particular to say: no error, a
handle numbered zero. -/
def AppCall.quiet : (c : AppCall) → AppResp c
  | .NewPostgresStorage _ => (some ⟨0⟩, none)
  | .logPrintf _ _ => ()
  | .logPrintln _ => ()
  | .NewUserService _ => ⟨0⟩
  | .redisNewClient Addr Password DB => ⟨Addr, Password, DB⟩
  | .redisPing _ => none
  | .NewKafkaConsumerManager => ⟨0⟩
  | .NewKafkaProducer _ => (⟨0⟩, none)
  | .RegisterConsumer _ => none
  | .slogWarn _ => ()
  | .slogError _ _ _ => ()
  | .apiEngine h => ⟨h⟩
  | .SetTrustedProxies _ => ()
  | .routerRun _ _ => none

/-- A manager that answers the successive `RegisterConsumer` calls with the results of a
script, in order (no error once the script is used up); every other call is answered
quietly. -/
def scripted : World AppCall AppResp (List (Option Error))
  | .RegisterConsumer _, [] => (none, [])
  | .RegisterConsumer _, r :: rest => (r, rest)
  | c, script => (c.quiet, script)

/-! ## The registry of the spec -/

/-- Modelled from the spec: package `pkg/kafka/consumer` is not in src.  A consumer
registration is a tuple of topic, group identifier and handler function (§3). -/
structure ConsumerRegistration where
  topic : String
  group : String
  handler : MessageHandler
  deriving DecidableEq, Repr

/-- Modelled from the spec: package `pkg/kafka/consumer` is not in src.  The registry is the
map from topic to consumer registration (§3), here the registrations in insertion order. -/
abbrev Registry : Type := List ConsumerRegistration

/-- The topics that have a registration. -/
def Registry.topics (reg : Registry) : List String := reg.map fun r => r.topic

/-- Modelled from the spec: package `pkg/kafka/consumer` is not in src.  `register` checks the
registry; if an entry for the topic exists it returns the already-registered error and does
nothing else; if absent it inserts the registration (§4.3). -/
def Registry.register (reg : Registry) (args : RegisterArgs) : Option Error × Registry :=
  if args.topic ∈ reg.topics then (some .ErrConsumerAlreadyExists, reg)
  else (none, reg ++ [⟨args.topic, args.group, args.handler⟩])

/-- The environment state when the managers follow the spec: the state of the other
collaborators and the registry of every manager created so far (manager `ref` is the
`ref`-th). -/
structure Managed (σ : Type) : Type where
  ext : σ
  managers : List Registry

/-- Modelled from the spec: package `pkg/kafka/consumer` is not in src.  The registry is
created empty (§3) and `RegisterConsumer` is the `register` of §4.3 on the registry of the
manager it is called on; every other call is answered by the environment `w`. -/
def specManagers {σ : Type} (w : World AppCall AppResp σ) : World AppCall AppResp (Managed σ)
  | .NewKafkaConsumerManager, st =>
    (⟨st.managers.length⟩, { st with managers := st.managers ++ [[]] })
  | .RegisterConsumer args, st =>
    match st.managers[args.kcm.ref]? with
    | none => (some (.other "no such manager"), st)
    | some reg =>
      ((reg.register args).1,
        { st with managers := st.managers.set args.kcm.ref (reg.register args).2 })
  | c, st => ((w c st.ext).1, { st with ext := (w c st.ext).2 })

/-- An environment without state in which every call succeeds. -/
def allQuiet : World AppCall AppResp Unit := fun c _ => (c.quiet, ())

/-- An environment without state in which the Redis ping returns an error and every other
call succeeds. -/
def redisDown : World AppCall AppResp Unit
  | .redisPing _, _ => (some (.other "dial tcp: connection refused"), ())
  | c, _ => (c.quiet, ())

/-- An environment without state in which `NewKafkaProducer` returns an error and every other
call succeeds. -/
def producerDown : World AppCall AppResp Unit
  | .NewKafkaProducer _, _ => ((⟨0⟩, some (.other "kafka: no brokers")), ())
  | c, _ => (c.quiet, ())

/-- A call on the consumer manager package. -/
def AppCall.isManagerCall : AppCall → Bool
  | .NewKafkaConsumerManager => true
  | .RegisterConsumer _ => true
  | _ => false

/-- The three ways startup can go, read off how `Run` ended, the calls made and the registries
left: the Redis ping fails and `Run` panics with nothing created; the producer cannot be
created and `Run` returns with the one manager created and left empty; or the four
registrations are made, none returning an error, on the one manager created, whose registry
then holds exactly them, and `Run` ends as the HTTP server does. -/
def StartupShape (o : Outcome Unit) (t : List (Event AppCall AppResp))
    (managers : List Registry) : Prop :=
  (∃ e, pingErrors t = [e] ∧ producerErrors t = [] ∧ managersCreated t = 0
      ∧ registrations t = [] ∧ managers = []
      ∧ o = .panicked ⟨"Failed to connect to Redis: %v", [.err e]⟩)
  ∨ (∃ e, pingErrors t = [] ∧ producerErrors t = [e] ∧ managersCreated t = 1
      ∧ registrations t = [] ∧ managers = [[]] ∧ o = .returned ())
  ∨ (∃ authService userService, pingErrors t = [] ∧ producerErrors t = []
      ∧ managersCreated t = 1
      ∧ registrations t
        = (readerCalls ["kafka:9092"] ⟨0⟩ authService userService).map
            (fun args => (args, none))
      ∧ managers
        = [[⟨"reg-user", "auth", .UserRegisterHandler authService⟩,
            ⟨"upd-user", "auth", .UserEditProfileHandler userService⟩,
            ⟨"upd-pass", "auth", .UserEditPasswordHandler userService⟩,
            ⟨"upd-setting", "auth", .UserEditSettingHandler userService⟩]]
      ∧ (o = .returned () ∨ ∃ e, o = .panicked ⟨"can't start server: %v", [.err e]⟩))

/-- At most one registration per topic, in every registry. -/
def OnePerTopic {σ : Type} (st : Managed σ) : Prop :=
  ∀ reg ∈ st.managers, reg.topics.Nodup

/-- The configuration used in the examples. -/
def exampleConfig : Config := { AUTH_PORT := ":8080" }

/-! ## Package `handlers` -/

/-- Modelled from the spec: `genproto/auth` is not in src; the request body of the profile edit
carries first name, last name, email and phone (§6, topic `upd-user`). -/
structure EditProfileReqBpdy where
  FirstName : String
  LastName : String
  Email : String
  PhoneNumber : String
  deriving DecidableEq, Repr

/-- Modelled from the spec: `genproto/auth` is not in src; the request body of the password
change carries the current and the new password (§6, topic `upd-pass`). -/
structure ChangePasswordReqBody where
  CurrentPassword : String
  NewPassword : String
  deriving DecidableEq, Repr

/-- Modelled from the spec: `genproto/auth` is not in src; settings are a privacy level, a
notification flag, a language and a theme (§6, topic `upd-setting`). -/
structure Setting where
  PrivacyLevel : String
  Notification : Bool
  Language : String
  Theme : String
  deriving DecidableEq, Repr

/-- Modelled from the spec: `genproto/auth` is not in src; the `upd-user` payload carries user
id, first and last name, email and phone (§6).  `Rest` stands for whatever further fields the
message declares; its zero value is `default`. -/
structure UserRes (ρ : Type) where
  Id : String
  FirstName : String
  LastName : String
  Email : String
  PhoneNumber : String
  Rest : ρ
  deriving DecidableEq, Repr

/-- Modelled from the spec: `genproto/auth` is not in src; the `upd-pass` payload carries user
id, current password and new hashed password (§6). -/
structure ChangePasswordReq where
  Id : String
  CurrentPassword : String
  NewPassword : String
  deriving DecidableEq, Repr

/-- Modelled from the spec: `genproto/auth` is not in src; the `upd-setting` payload carries
user id, privacy level, notification flag, language and theme (§6). -/
structure SettingReq where
  Id : String
  PrivacyLevel : String
  Notification : Bool
  Language : String
  Theme : String
  deriving DecidableEq, Repr

/-- Go `auth.GetById`. -/
structure GetById where
  Id : String
  deriving DecidableEq, Repr

/-- The request body types the handlers bind. -/
inductive BodyType : Type where
  | EditProfileReqBpdy
  | ChangePasswordReqBody
  | Setting
  deriving DecidableEq, Repr

/-- The Go type behind each `BodyType`. -/
@[reducible]
def BodyType.type : BodyType → Type
  | .EditProfileReqBpdy => LibraryAuth.EditProfileReqBpdy
  | .ChangePasswordReqBody => LibraryAuth.ChangePasswordReqBody
  | .Setting => LibraryAuth.Setting

/-- The values handed to `json.Marshal`. -/
inductive Payload (ρ : Type) : Type where
  | UserRes (req : UserRes ρ)
  | ChangePasswordReq (req : ChangePasswordReq)
  | SettingReq (req : SettingReq)
  deriving DecidableEq, Repr

/-- A byte slice. -/
abbrev Bytes : Type := List UInt8

/-- The second argument of `c.JSON`: a `gin.H` with one key, a profile, or settings. -/
inductive JSONBody (ρ : Type) : Type where
  | H (key value : String)
  | profile (p : UserRes ρ)
  | setting (p : Setting)
  deriving DecidableEq, Repr

/-- Go `http.StatusOK`. -/
def StatusOK : Nat := 200
/-- Go `http.StatusBadRequest`. -/
def StatusBadRequest : Nat := 400
/-- Go `http.StatusInternalServerError`. -/
def StatusInternalServerError : Nat := 500

/-- The calls the handlers of `api/handlers/user.go` make to their collaborators. -/
inductive GinCall (ρ : Type) : Type where
  | getuserId
  | ShouldBindJSON (ty : BodyType)
  | logPrintln (msg : String) (err : Error)
  | logPrintf (format : String) (err : Error)
  | HashPassword (password : String)
  | jsonMarshal (v : Payload ρ)
  | ProduceMessages (producer : KafkaProducer) (topic : String) (input : Bytes)
  | cJSON (code : Nat) (obj : JSONBody ρ)
  | UserGetProfile (svc : UserService) (req : GetById)
  | UserGetSetting (svc : UserService) (req : GetById)
  | UserDeleteUser (svc : UserService) (req : GetById)

/-- What each call of the handlers returns. -/
@[reducible]
def GinResp (ρ : Type) : GinCall ρ → Type
  | .getuserId => String
  | .ShouldBindJSON ty => Except Error ty.type
  | .logPrintln _ _ => Unit
  | .logPrintf _ _ => Unit
  | .HashPassword _ => Except Error String
  | .jsonMarshal _ => Except Error Bytes
  | .ProduceMessages _ _ _ => Option Error
  | .cJSON _ _ => Unit
  | .UserGetProfile _ _ => Except Error (UserRes ρ)
  | .UserGetSetting _ _ => Except Error Setting
  | .UserDeleteUser _ _ => Except Error Unit

/-- Programs of package `handlers`. -/
abbrev Gin (ρ : Type) (α : Type) : Type := Prog (GinCall ρ) (GinResp ρ) α

section Handlers

variable {ρ : Type}

/-- Go `getuserId(c)`: the authenticated user id of the request. -/
def getuserId : Gin ρ String := Prog.perform .getuserId
/-- Go `c.ShouldBindJSON(&body)`: the bound body, or the binding error. -/
def ShouldBindJSON (ty : BodyType) : Gin ρ (Except Error ty.type) :=
  Prog.perform (.ShouldBindJSON ty)
/-- Go `log.Println(msg, err)`. -/
def logPrintln (msg : String) (err : Error) : Gin ρ Unit := Prog.perform (.logPrintln msg err)
/-- Go `log.Printf(format, err)`. -/
def logPrintf (format : String) (err : Error) : Gin ρ Unit :=
  Prog.perform (.logPrintf format err)
/-- Go `t.HashPassword(password)`. -/
def HashPassword (password : String) : Gin ρ (Except Error String) :=
  Prog.perform (.HashPassword password)
/-- Go `json.Marshal(req)`. -/
def jsonMarshal (v : Payload ρ) : Gin ρ (Except Error Bytes) := Prog.perform (.jsonMarshal v)
/-- Go `producer.ProduceMessages(topic, input)`. -/
def ProduceMessages (producer : KafkaProducer) (topic : String) (input : Bytes) :
    Gin ρ (Option Error) :=
  Prog.perform (.ProduceMessages producer topic input)
/-- Go `c.JSON(code, obj)`. -/
def cJSON (code : Nat) (obj : JSONBody ρ) : Gin ρ Unit := Prog.perform (.cJSON code obj)
/-- Go `svc.GetProfile(c, req)` on the user service. -/
def UserGetProfile (svc : UserService) (req : GetById) : Gin ρ (Except Error (UserRes ρ)) :=
  Prog.perform (.UserGetProfile svc req)
/-- Go `svc.GetSetting(c, req)` on the user service. -/
def UserGetSetting (svc : UserService) (req : GetById) : Gin ρ (Except Error Setting) :=
  Prog.perform (.UserGetSetting svc req)
/-- Go `svc.DeleteUser(c, req)` on the user service. -/
def UserDeleteUser (svc : UserService) (req : GetById) : Gin ρ (Except Error Unit) :=
  Prog.perform (.UserDeleteUser svc req)

/-- Go `(*Handlers).GetProfile`. -/
def GetProfile (h : Handlers) : Gin ρ Unit := do
  let userID ← getuserId
  let req : GetById := { Id := userID }
  match ← UserGetProfile h.User req with
  | .error err =>
    (logPrintln "Error getting profile:" err)
    (cJSON StatusInternalServerError (.H "error" "internal server error"))
  | .ok profile =>
    (cJSON StatusOK (.profile profile))

/-- Go `(*Handlers).EditProfile`. -/
def EditProfile [Inhabited ρ] (h : Handlers) : Gin ρ Unit := do
  let userID ← getuserId
  match ← ShouldBindJSON .EditProfileReqBpdy with
  | .error err =>
    (logPrintln "Error binding JSON:" err)
    (cJSON StatusBadRequest (.H "error" "Invalid request body"))
  | .ok body =>
    let req : UserRes ρ :=
      { Id := userID
        FirstName := body.FirstName
        Email := body.Email
        LastName := body.LastName
        PhoneNumber := body.PhoneNumber
        Rest := default }
    match ← jsonMarshal (.UserRes req) with
    | .error _ =>
      (cJSON StatusBadRequest (.H "error" "internal server error"))
    | .ok input =>
      match ← ProduceMessages h.Producer "upd-user" input with
      | some _ =>
        (cJSON StatusInternalServerError (.H "error" "internal server error"))
      | none =>
        (cJSON StatusOK
          (.H "message" ("Profile for user " ++ req.Id ++ " updated successfully")))

/-- Go `(*Handlers).ChangePassword`. -/
def ChangePassword (h : Handlers) : Gin ρ Unit := do
  let userID ← getuserId
  match ← ShouldBindJSON .ChangePasswordReqBody with
  | .error err =>
    (logPrintln "Error binding JSON:" err)
    (cJSON StatusBadRequest (.H "error" "Invalid request body"))
  | .ok body =>
    match ← HashPassword body.NewPassword with
    | .error err =>
      (logPrintf "failed to hash password: %v" err)
      (cJSON StatusInternalServerError (.H "error" "internal server error"))
    | .ok password =>
      let body : ChangePasswordReqBody := { body with NewPassword := password }
      let req : ChangePasswordReq :=
        { Id := userID
          CurrentPassword := body.CurrentPassword
          NewPassword := body.NewPassword }
      match ← jsonMarshal (.ChangePasswordReq req) with
      | .error _ =>
        (cJSON StatusBadRequest (.H "error" "internal server error"))
      | .ok input =>
        match ← ProduceMessages h.Producer "upd-pass" input with
        | some _ =>
          (cJSON StatusInternalServerError (.H "error" "internal server error"))
        | none =>
          (cJSON StatusOK (.H "message" "Password updated successfully"))

/-- Go `(*Handlers).GetSetting`. -/
def GetSetting (h : Handlers) : Gin ρ Unit := do
  let userID ← getuserId
  let req : GetById := { Id := userID }
  match ← UserGetSetting h.User req with
  | .error err =>
    (logPrintln "Error getting setting:" err)
    (cJSON StatusInternalServerError (.H "error" "internal server error"))
  | .ok setting =>
    (cJSON StatusOK (.setting setting))

/-- Go `(*Handlers).EditSetting`. -/
def EditSetting (h : Handlers) : Gin ρ Unit := do
  let userID ← getuserId
  match ← ShouldBindJSON .Setting with
  | .error err =>
    (logPrintln "Error binding JSON:" err)
    (cJSON StatusBadRequest (.H "error" "Invalid request body"))
  | .ok body =>
    let req : SettingReq :=
      { Id := userID
        PrivacyLevel := body.PrivacyLevel
        Notification := body.Notification
        Language := body.Language
        Theme := body.Theme }
    match ← jsonMarshal (.SettingReq req) with
    | .error _ =>
      (cJSON StatusBadRequest (.H "error" "internal server error"))
    | .ok input =>
      match ← ProduceMessages h.Producer "upd-setting" input with
      | some _ =>
        (cJSON StatusInternalServerError (.H "error" "internal server error"))
      | none =>
        (cJSON StatusOK
          (.H "message" ("Setting for user " ++ req.Id ++ " updated successfully")))

/-- Go `(*Handlers).DeleteUser`. -/
def DeleteUser (h : Handlers) : Gin ρ Unit := do
  let userID ← getuserId
  let req : GetById := { Id := userID }
  match ← UserDeleteUser h.User req with
  | .error _ =>
    (cJSON StatusInternalServerError (.H "error" "internal server error"))
  | .ok _ =>
    (cJSON StatusOK (.H "message" ("User " ++ req.Id ++ " deleted successfully")))

end Handlers

/-! ## Observing a handler run -/

section Observations

variable {ρ : Type}

/-- The `ProduceMessages` calls of a run, in order: producer, topic and payload. -/
def published (t : List (Event (GinCall ρ) (GinResp ρ))) :
    List (KafkaProducer × String × Bytes) :=
  t.filterMap fun ev =>
    match ev.call with
    | .ProduceMessages producer topic input => some (producer, topic, input)
    | _ => none

/-- The `c.JSON` calls of a run, in order: status code and body. -/
def responses (t : List (Event (GinCall ρ) (GinResp ρ))) : List (Nat × JSONBody ρ) :=
  t.filterMap fun ev =>
    match ev.call with
    | .cJSON code obj => some (code, obj)
    | _ => none

/-- The results of the `ProduceMessages` calls of a run, in order. -/
def publishResults (t : List (Event (GinCall ρ) (GinResp ρ))) : List (Option Error) :=
  t.filterMap fun ev =>
    match ev with
    | ⟨.ProduceMessages _ _ _, err⟩ => some err
    | _ => none

/-- The `json.Marshal` calls of a run, in order: the value encoded and the result. -/
def encoded (t : List (Event (GinCall ρ) (GinResp ρ))) :
    List (Payload ρ × Except Error Bytes) :=
  t.filterMap fun ev =>
    match ev with
    | ⟨.jsonMarshal v, r⟩ => some (v, r)
    | _ => none

/-- The `HashPassword` calls of a run, in order: the password hashed and the result. -/
def hashed (t : List (Event (GinCall ρ) (GinResp ρ))) : List (String × Except Error String) :=
  t.filterMap fun ev =>
    match ev with
    | ⟨.HashPassword password, r⟩ => some (password, r)
    | _ => none

/-- The errors `ShouldBindJSON` returned during a run. -/
def bindErrors (t : List (Event (GinCall ρ) (GinResp ρ))) : List Error :=
  t.filterMap fun ev =>
    match ev with
    | ⟨.ShouldBindJSON _, .error err⟩ => some err
    | _ => none

/-- The errors `HashPassword` returned during a run. -/
def hashErrors (t : List (Event (GinCall ρ) (GinResp ρ))) : List Error :=
  t.filterMap fun ev =>
    match ev with
    | ⟨.HashPassword _, .error err⟩ => some err
    | _ => none

/-- The errors `json.Marshal` returned during a run. -/
def marshalErrors (t : List (Event (GinCall ρ) (GinResp ρ))) : List Error :=
  t.filterMap fun ev =>
    match ev with
    | ⟨.jsonMarshal _, .error err⟩ => some err
    | _ => none

/-- A call on a domain service. -/
def GinCall.isDomainCall : GinCall ρ → Bool
  | .UserGetProfile _ _ => true
  | .UserGetSetting _ _ => true
  | .UserDeleteUser _ _ => true
  | _ => false

/-- The domain-service calls of a run, in order. -/
def domainCalls (t : List (Event (GinCall ρ) (GinResp ρ))) : List (GinCall ρ) :=
  (t.map fun ev => ev.call).filter GinCall.isDomainCall

/-- The three handlers that dispatch a mutation through the producer. -/
inductive Mutation : Type where
  | EditProfile
  | ChangePassword
  | EditSetting
  deriving DecidableEq, Repr

/-- The handler of a mutation. -/
def Mutation.handler [Inhabited ρ] : Mutation → Handlers → Gin ρ Unit
  | .EditProfile => LibraryAuth.EditProfile
  | .ChangePassword => LibraryAuth.ChangePassword
  | .EditSetting => LibraryAuth.EditSetting

/-- The program never makes a call that `bad` marks, whatever it is answered. -/
def Prog.Avoids {C : Type} {R : C → Type} {α : Type} (bad : C → Bool) : Prog C R α → Prop
  | .ret _ => True
  | .call c k => bad c = false ∧ ∀ r, (k r).Avoids bad
  | .panic _ => True

/-- The `upd-user` payload `EditProfile` builds from the user id and the bound body. -/
def profilePayload [Inhabited ρ] (uid : String) (body : EditProfileReqBpdy) : Payload ρ :=
  .UserRes
    { Id := uid
      FirstName := body.FirstName
      LastName := body.LastName
      Email := body.Email
      PhoneNumber := body.PhoneNumber
      Rest := default }

/-- The `upd-pass` payload `ChangePassword` builds from the user id, the bound body and the
hash of the new password. -/
def passwordPayload (uid : String) (body : ChangePasswordReqBody) (hash : String) :
    Payload ρ :=
  .ChangePasswordReq { Id := uid, CurrentPassword := body.CurrentPassword, NewPassword := hash }

/-- The `upd-setting` payload `EditSetting` builds from the user id and the bound body. -/
def settingPayload (uid : String) (body : Setting) : Payload ρ :=
  .SettingReq
    { Id := uid
      PrivacyLevel := body.PrivacyLevel
      Notification := body.Notification
      Language := body.Language
      Theme := body.Theme }

/-- The calls of a mutation handler from `json.Marshal` on, given the payload `v` it encodes,
the topic, and the message of the success response: encoding fails; publishing fails; or the
command is published. -/
def DispatchTrace (h : Handlers) (topic : String) (v : Payload ρ) (okMessage : String)
    (t : List (Event (GinCall ρ) (GinResp ρ))) : Prop :=
  (∃ err : Error, t
    = [⟨.jsonMarshal v, Except.error err⟩,
       ⟨.cJSON StatusBadRequest (.H "error" "internal server error"), ()⟩])
  ∨ (∃ (input : Bytes) (err : Error), t
    = [⟨.jsonMarshal v, Except.ok input⟩,
       ⟨.ProduceMessages h.Producer topic input, some err⟩,
       ⟨.cJSON StatusInternalServerError (.H "error" "internal server error"), ()⟩])
  ∨ (∃ input : Bytes, t
    = [⟨.jsonMarshal v, Except.ok input⟩,
       ⟨.ProduceMessages h.Producer topic input, none⟩,
       ⟨.cJSON StatusOK (.H "message" okMessage), ()⟩])

/-- The calls of a mutation handler when the body does not bind. -/
def rejectedTrace (uid : String) (ty : BodyType) (err : Error) :
    List (Event (GinCall ρ) (GinResp ρ)) :=
  [⟨.getuserId, uid⟩, ⟨.ShouldBindJSON ty, Except.error err⟩,
   ⟨.logPrintln "Error binding JSON:" err, ()⟩,
   ⟨.cJSON StatusBadRequest (.H "error" "Invalid request body"), ()⟩]

/-- The ways `EditProfile` can go, with the calls made on each. -/
def EditProfileTrace [Inhabited ρ] (h : Handlers) (t : List (Event (GinCall ρ) (GinResp ρ))) :
    Prop :=
  ∃ uid : String,
    (∃ err, t = rejectedTrace uid .EditProfileReqBpdy err)
    ∨ (∃ (body : EditProfileReqBpdy) (rest : List (Event (GinCall ρ) (GinResp ρ))),
        t = ⟨.getuserId, uid⟩ :: ⟨.ShouldBindJSON .EditProfileReqBpdy, Except.ok body⟩ :: rest
        ∧ DispatchTrace h "upd-user" (profilePayload uid body)
            ("Profile for user " ++ uid ++ " updated successfully") rest)

/-- The ways `ChangePassword` can go, with the calls made on each. -/
def ChangePasswordTrace (h : Handlers) (t : List (Event (GinCall ρ) (GinResp ρ))) : Prop :=
  ∃ uid : String,
    (∃ err, t = rejectedTrace uid .ChangePasswordReqBody err)
    ∨ (∃ (body : ChangePasswordReqBody) (err : Error),
        t = [⟨.getuserId, uid⟩, ⟨.ShouldBindJSON .ChangePasswordReqBody, Except.ok body⟩,
             ⟨.HashPassword body.NewPassword, Except.error err⟩,
             ⟨.logPrintf "failed to hash password: %v" err, ()⟩,
             ⟨.cJSON StatusInternalServerError (.H "error" "internal server error"), ()⟩])
    ∨ (∃ (body : ChangePasswordReqBody) (hash : String)
        (rest : List (Event (GinCall ρ) (GinResp ρ))),
        t = ⟨.getuserId, uid⟩ :: ⟨.ShouldBindJSON .ChangePasswordReqBody, Except.ok body⟩
              :: ⟨.HashPassword body.NewPassword, Except.ok hash⟩ :: rest
        ∧ DispatchTrace h "upd-pass" (passwordPayload uid body hash)
            "Password updated successfully" rest)

/-- The ways `EditSetting` can go, with the calls made on each. -/
def EditSettingTrace (h : Handlers) (t : List (Event (GinCall ρ) (GinResp ρ))) : Prop :=
  ∃ uid : String,
    (∃ err, t = rejectedTrace uid .Setting err)
    ∨ (∃ (body : Setting) (rest : List (Event (GinCall ρ) (GinResp ρ))),
        t = ⟨.getuserId, uid⟩ :: ⟨.ShouldBindJSON .Setting, Except.ok body⟩ :: rest
        ∧ DispatchTrace h "upd-setting" (settingPayload uid body)
            ("Setting for user " ++ uid ++ " updated successfully") rest)

/-! ## Example environments -/

/-- What the collaborators of a handler answer, when the answer does not depend on what
happened before. -/
structure Answers (ρ : Type) : Type where
  userId : String
  body : (ty : BodyType) → Except Error ty.type
  hash : String → Except Error String
  marshal : Payload ρ → Except Error Bytes
  publish : String → Bytes → Option Error
  domain : Option Error

/-- The environment that gives the answers of `a`. -/
def Answers.world [Inhabited ρ] (a : Answers ρ) : World (GinCall ρ) (GinResp ρ) Unit
  | .getuserId, _ => (a.userId, ())
  | .ShouldBindJSON ty, _ => (a.body ty, ())
  | .logPrintln _ _, _ => ((), ())
  | .logPrintf _ _, _ => ((), ())
  | .HashPassword password, _ => (a.hash password, ())
  | .jsonMarshal v, _ => (a.marshal v, ())
  | .ProduceMessages _ topic input, _ => (a.publish topic input, ())
  | .cJSON _ _, _ => ((), ())
  | .UserGetProfile _ req, _ =>
    (match a.domain with
      | some err => .error err
      | none => .ok ⟨req.Id, "", "", "", "", default⟩, ())
  | .UserGetSetting _ _, _ =>
    (match a.domain with
      | some err => .error err
      | none => .ok ⟨"", false, "", ""⟩, ())
  | .UserDeleteUser _ _, _ =>
    (match a.domain with
      | some err => .error err
      | none => .ok (), ())

/-- The request bodies of the examples. -/
def exampleBody : (ty : BodyType) → ty.type
  | .EditProfileReqBpdy => ⟨"Ada", "Lovelace", "ada@example.org", "+44 20 7946 0000"⟩
  | .ChangePasswordReqBody => ⟨"old-secret", "new-secret"⟩
  | .Setting => ⟨"private", true, "en", "dark"⟩

/-- User 42 sends well-formed bodies; hashing, encoding and publishing succeed. -/
def allGood : Answers Unit where
  userId := "42"
  body := fun ty => .ok (exampleBody ty)
  hash := fun password => .ok ("$2a$10$" ++ password)
  marshal := fun _ => .ok [123, 125]
  publish := fun _ _ => none
  domain := none

/-- As `allGood`, but the broker rejects every write. -/
def brokerDown : Answers Unit := { allGood with publish := fun _ _ => some (.other "broker unreachable") }

/-- As `allGood`, but no body binds. -/
def badBody : Answers Unit := { allGood with body := fun _ => .error (.other "EOF") }

/-- As `allGood`, but hashing fails. -/
def hashFails : Answers Unit := { allGood with hash := fun _ => .error (.other "password too long") }

/-- As `allGood`, but the domain services are unavailable. -/
def domainDown : Answers Unit := { allGood with domain := some (.other "storage unavailable") }

/-- The handlers value of the examples. -/
def exampleHandlers : Handlers :=
  NewHandler (NewAuthService (some ⟨0⟩)) ⟨0⟩ ⟨"redis:6379", "", 0⟩ ⟨0⟩

end Observations

/-! ## Running sequenced programs -/

section RunLemmas

variable {C : Type} {R : C → Type} {α β σ : Type}

/-- Running `p >>= f`: run `p`; if it returned, run `f` on its value from the state `p` left,
the traces being concatenated; if it panicked, stop there. -/
theorem Prog.run_bind (w : World C R σ) (p : Prog C R α) (f : α → Prog C R β) (s : σ) :
    (p >>= f).run w s =
      match (p.run w s).outcome with
      | .returned a =>
        ⟨((f a).run w (p.run w s).final).outcome, ((f a).run w (p.run w s).final).final,
          (p.run w s).trace ++ ((f a).run w (p.run w s).final).trace,
          (p.run w s).states ++ ((f a).run w (p.run w s).final).states⟩
      | .panicked msg =>
        ⟨.panicked msg, (p.run w s).final, (p.run w s).trace, (p.run w s).states⟩ := by
  show (p.bind f).run w s = _
  induction p generalizing s with
  | ret a => simp [Prog.bind, Prog.run]
  | call c k ih =>
    simp only [Prog.bind, Prog.run]
    rw [ih]
    split <;> simp_all
  | panic msg => simp [Prog.bind, Prog.run]

theorem Prog.run_perform (w : World C R σ) (c : C) (s : σ) :
    (Prog.perform c : Prog C R (R c)).run w s
      = ⟨.returned (w c s).1, (w c s).2, [⟨c, (w c s).1⟩], [(w c s).2]⟩ := by
  simp [Prog.perform, Prog.run]

theorem Prog.run_pure (w : World C R σ) (a : α) (s : σ) :
    (pure a : Prog C R α).run w s = ⟨.returned a, s, [], []⟩ := rfl

/-- A property of the environment state that every call preserves holds after every step of
every run started in a state that has it. -/
theorem Prog.run_states_invariant (w : World C R σ) (P : σ → Prop)
    (hstep : ∀ c s, P s → P (w c s).2) (p : Prog C R α) (s : σ) (hs : P s) :
    ∀ st ∈ (p.run w s).states, P st := by
  induction p generalizing s with
  | ret a => simp [Prog.run]
  | call c k ih =>
    intro st hst
    simp only [Prog.run, List.mem_cons] at hst
    rcases hst with rfl | hst
    · exact hstep c s hs
    · exact ih _ _ (hstep c s hs) st hst
  | panic msg => simp [Prog.run]

end RunLemmas

/-! ## `Reader` -/

theorem registerBlock_outcome {σ : Type} (w : World AppCall AppResp σ) (s : σ)
    (args : RegisterArgs) : ((registerBlock args).run w s).outcome = .returned () := by
  simp only [registerBlock, Prog.run_bind, Prog.run_perform]
  split <;> [skip; split] <;> simp [Prog.run_pure, Prog.run_perform]

theorem registerBlock_calls {σ : Type} (w : World AppCall AppResp σ) (s : σ)
    (args : RegisterArgs) : registerCalls ((registerBlock args).run w s).trace = [args] := by
  simp only [registerBlock, Prog.run_bind, Prog.run_perform]
  split <;> [skip; split] <;> simp [Prog.run_pure, Prog.run_perform, registerCalls]

theorem registerCalls_append (t u : List (Event AppCall AppResp)) :
    registerCalls (t ++ u) = registerCalls t ++ registerCalls u := by
  simp [registerCalls]

theorem registerBlock_scripted_outcome (args : RegisterArgs) (script : List (Option Error)) :
    ((registerBlock args).run scripted script).outcome = .returned () :=
  registerBlock_outcome scripted script args

theorem registerBlock_scripted_final (args : RegisterArgs) (r : Option Error)
    (script : List (Option Error)) :
    ((registerBlock args).run scripted (r :: script)).final = script := by
  simp only [registerBlock, Prog.run_bind, Prog.run_perform, scripted]
  rcases r with _ | _ | _ <;> simp [Prog.run_pure, Prog.run_perform, scripted]

theorem registerBlock_scripted_registrations (args : RegisterArgs) (r : Option Error)
    (script : List (Option Error)) :
    registrations ((registerBlock args).run scripted (r :: script)).trace = [(args, r)] := by
  simp only [registerBlock, Prog.run_bind, Prog.run_perform, scripted]
  rcases r with _ | _ | _ <;> simp [Prog.run_pure, Prog.run_perform, scripted, registrations]

theorem registerBlock_scripted_slog (args : RegisterArgs) (r : Option Error)
    (script : List (Option Error)) :
    slogCalls ((registerBlock args).run scripted (r :: script)).trace = slogFor args.topic r := by
  simp only [registerBlock, Prog.run_bind, Prog.run_perform, scripted]
  rcases r with _ | _ | _ <;>
    simp [Prog.run_pure, Prog.run_perform, scripted, slogCalls, slogFor]

theorem registrations_append (t u : List (Event AppCall AppResp)) :
    registrations (t ++ u) = registrations t ++ registrations u := by
  simp [registrations]

theorem slogCalls_append (t u : List (Event AppCall AppResp)) :
    slogCalls (t ++ u) = slogCalls t ++ slogCalls u := by
  simp [slogCalls]

/-- C1: against every manager, whatever it answers, `Reader` makes exactly four
`RegisterConsumer` calls on the manager it is given, in the order `reg-user`, `upd-user`,
`upd-pass`, `upd-setting`, each with the brokers list it received, group `auth` and the
handler built for that topic from the matching service. -/
theorem Reader_registers_fixed_topics {σ : Type} (w : World AppCall AppResp σ) (s : σ)
    (brokers : List String) (kcm : KafkaConsumerManager) (authService : AuthService)
    (userService : UserService) :
    registerCalls ((Reader brokers kcm authService userService).run w s).trace
      = [⟨kcm, brokers, "reg-user", "auth", .UserRegisterHandler authService⟩,
         ⟨kcm, brokers, "upd-user", "auth", .UserEditProfileHandler userService⟩,
         ⟨kcm, brokers, "upd-pass", "auth", .UserEditPasswordHandler userService⟩,
         ⟨kcm, brokers, "upd-setting", "auth", .UserEditSettingHandler userService⟩] := by
  simp only [Reader, Prog.run_bind, registerBlock_outcome, registerCalls_append,
    registerBlock_calls]
  rfl

theorem Reader_outcome {σ : Type} (w : World AppCall AppResp σ) (s : σ)
    (brokers : List String) (kcm : KafkaConsumerManager) (authService : AuthService)
    (userService : UserService) :
    ((Reader brokers kcm authService userService).run w s).outcome = .returned () := by
  simp only [Reader, Prog.run_bind, registerBlock_outcome]

theorem Reader_calls {σ : Type} (w : World AppCall AppResp σ) (s : σ)
    (brokers : List String) (kcm : KafkaConsumerManager) (authService : AuthService)
    (userService : UserService) :
    registerCalls ((Reader brokers kcm authService userService).run w s).trace
      = readerCalls brokers kcm authService userService := by
  simp only [Reader, Prog.run_bind, registerBlock_outcome, registerCalls_append,
    registerBlock_calls, readerCalls]
  rfl

/-- C8: a registration error is not fatal.  Whatever the four `RegisterConsumer` calls return
(`r1` .. `r4`: nil, `ErrConsumerAlreadyExists` or any other error), `Reader` returns normally,
has made all four calls (the script of results is used up), each call has the same arguments
as when nothing fails, and each error is only logged: a warning for
`ErrConsumerAlreadyExists`, an error line otherwise.  The calls made do not depend on the
environment at all. -/
theorem Reader_registration_error_not_fatal (r1 r2 r3 r4 : Option Error)
    (brokers : List String) (kcm : KafkaConsumerManager) (authService : AuthService)
    (userService : UserService) :
    ((Reader brokers kcm authService userService).run scripted [r1, r2, r3, r4]).outcome
        = .returned ()
      ∧ ((Reader brokers kcm authService userService).run scripted [r1, r2, r3, r4]).final = []
      ∧ registrations
          ((Reader brokers kcm authService userService).run scripted [r1, r2, r3, r4]).trace
        = [(⟨kcm, brokers, "reg-user", "auth", .UserRegisterHandler authService⟩, r1),
           (⟨kcm, brokers, "upd-user", "auth", .UserEditProfileHandler userService⟩, r2),
           (⟨kcm, brokers, "upd-pass", "auth", .UserEditPasswordHandler userService⟩, r3),
           (⟨kcm, brokers, "upd-setting", "auth", .UserEditSettingHandler userService⟩, r4)]
      ∧ slogCalls
          ((Reader brokers kcm authService userService).run scripted [r1, r2, r3, r4]).trace
        = slogFor "reg-user" r1 ++ slogFor "upd-user" r2 ++ slogFor "upd-pass" r3
            ++ slogFor "upd-setting" r4
      ∧ ∀ (σ τ : Type) (w : World AppCall AppResp σ) (v : World AppCall AppResp τ) (s : σ)
          (t : τ),
          ((Reader brokers kcm authService userService).run w s).outcome = .returned ()
            ∧ registerCalls ((Reader brokers kcm authService userService).run w s).trace
              = registerCalls ((Reader brokers kcm authService userService).run v t).trace := by
  refine ⟨Reader_outcome _ _ _ _ _ _, ?_, ?_, ?_, ?_⟩
  · simp only [Reader, Prog.run_bind, registerBlock_scripted_outcome,
      registerBlock_scripted_final]
  · simp only [Reader, Prog.run_bind, registerBlock_scripted_outcome,
      registerBlock_scripted_final, registrations_append,
      registerBlock_scripted_registrations]
    rfl
  · simp only [Reader, Prog.run_bind, registerBlock_scripted_outcome,
      registerBlock_scripted_final, slogCalls_append, registerBlock_scripted_slog]
    simp
  · intro σ τ w v s t
    exact ⟨Reader_outcome _ _ _ _ _ _, by rw [Reader_calls, Reader_calls]⟩

/-! ## Postconditions of runs -/

section AfterLemmas

variable {C : Type} {R : C → Type} {α σ : Type}

theorem Prog.After_ret (W : World C R σ) (a : α) (s : σ) (pre : List (Event C R))
    (Q : Outcome α → σ → List (Event C R) → Prop) :
    (Prog.ret a).After W s pre Q ↔ Q (.returned a) s pre := by
  simp [Prog.After, Prog.run]

theorem Prog.After_panic (W : World C R σ) (msg : Formatted) (s : σ) (pre : List (Event C R))
    (Q : Outcome α → σ → List (Event C R) → Prop) :
    (Prog.panic msg).After W s pre Q ↔ Q (.panicked msg) s pre := by
  simp [Prog.After, Prog.run]

theorem Prog.After_call (W : World C R σ) (c : C) (k : R c → Prog C R α) (s : σ)
    (pre : List (Event C R)) (Q : Outcome α → σ → List (Event C R) → Prop) :
    (Prog.call c k).After W s pre Q
      ↔ (k (W c s).1).After W (W c s).2 (pre ++ [⟨c, (W c s).1⟩]) Q := by
  simp [Prog.After, Prog.run]

/-- Whatever the environment answers: to show a postcondition after a call it is enough to
show it for every answer and every next state. -/
theorem Prog.After_call_any (W : World C R σ) (c : C) (k : R c → Prog C R α) (s : σ)
    (pre : List (Event C R)) (Q : Outcome α → σ → List (Event C R) → Prop)
    (h : ∀ r s', (k r).After W s' (pre ++ [⟨c, r⟩]) Q) :
    (Prog.call c k).After W s pre Q :=
  (Prog.After_call W c k s pre Q).2 (h _ _)

end AfterLemmas

/-! ## Startup -/

/-- A call that is not on the manager package may be answered anything; it leaves the
registries alone. -/
theorem After_call_ext {σ α : Type} (w : World AppCall AppResp σ) (c : AppCall)
    (hc : c.isManagerCall = false) (k : AppResp c → App α) (e : σ) (ms : List Registry)
    (pre : List (Event AppCall AppResp))
    (Q : Outcome α → Managed σ → List (Event AppCall AppResp) → Prop)
    (h : ∀ r e', (k r).After (specManagers w) ⟨e', ms⟩ (pre ++ [⟨c, r⟩]) Q) :
    (Prog.call c k).After (specManagers w) ⟨e, ms⟩ pre Q := by
  rw [Prog.After_call]
  cases c <;> first | exact h _ _ | simp [AppCall.isManagerCall] at hc

theorem After_call_newManager {σ α : Type} (w : World AppCall AppResp σ)
    (k : KafkaConsumerManager → App α) (e : σ) (ms : List Registry)
    (pre : List (Event AppCall AppResp))
    (Q : Outcome α → Managed σ → List (Event AppCall AppResp) → Prop) :
    (Prog.call AppCall.NewKafkaConsumerManager k).After (specManagers w) ⟨e, ms⟩ pre Q
      ↔ (k ⟨ms.length⟩).After (specManagers w) ⟨e, ms ++ [[]]⟩
          (pre ++ [⟨.NewKafkaConsumerManager, (⟨ms.length⟩ : KafkaConsumerManager)⟩]) Q := by
  rw [Prog.After_call]
  rfl

theorem After_call_register {σ α : Type} (w : World AppCall AppResp σ) (args : RegisterArgs)
    (k : Option Error → App α) (e : σ) (ms : List Registry) (reg : Registry)
    (hreg : ms[args.kcm.ref]? = some reg)
    (pre : List (Event AppCall AppResp))
    (Q : Outcome α → Managed σ → List (Event AppCall AppResp) → Prop) :
    (Prog.call (AppCall.RegisterConsumer args) k).After (specManagers w) ⟨e, ms⟩ pre Q
      ↔ (k (reg.register args).1).After (specManagers w)
          ⟨e, ms.set args.kcm.ref (reg.register args).2⟩
          (pre ++ [⟨.RegisterConsumer args, (reg.register args).1⟩]) Q := by
  rw [Prog.After_call]
  simp [specManagers, hreg]

theorem Run_shape {σ : Type} (w : World AppCall AppResp σ) (s : σ) (cfg : Config) :
    (Run cfg).After (specManagers w) ⟨s, []⟩ [] (fun o st t => StartupShape o t st.managers) := by
  simp only [Run, logPanicf, Reader, registerBlock, bind, Prog.bind, Prog.perform, pure]
  refine After_call_ext _ _ (by rfl) _ _ _ _ _ ?_
  rintro ⟨db, err⟩ e
  rcases err with _ | err <;> simp only [Prog.bind]
  on_goal 2 =>
    refine After_call_ext _ _ (by rfl) _ _ _ _ _ ?_
    intro _ e
  all_goals
    refine After_call_ext _ _ (by rfl) _ _ _ _ _ ?_
    intro _ e
    refine After_call_ext _ _ (by rfl) _ _ _ _ _ ?_
    intro userService e
    refine After_call_ext _ _ (by rfl) _ _ _ _ _ ?_
    intro rdb e
    refine After_call_ext _ _ (by rfl) _ _ _ _ _ ?_
    intro ping e
    rcases ping with _ | err <;> simp only []
  -- Redis does not answer: panic before anything is created
  on_goal 2 =>
    refine After_call_ext _ _ (by rfl) _ _ _ _ _ ?_
    intro _ _
    rw [Prog.After_panic]
    simp [StartupShape, pingErrors, producerErrors, managersCreated, registrations]
  on_goal 3 =>
    refine After_call_ext _ _ (by rfl) _ _ _ _ _ ?_
    intro _ _
    rw [Prog.After_panic]
    simp [StartupShape, pingErrors, producerErrors, managersCreated, registrations]
  all_goals
    refine After_call_ext _ _ (by rfl) _ _ _ _ _ ?_
    intro _ e
    rw [After_call_newManager]
    refine After_call_ext _ _ (by rfl) _ _ _ _ _ ?_
    rintro ⟨pr, perr⟩ e
    rcases perr with _ | err <;> simp only [List.nil_append, List.length_nil]
  -- the producer cannot be created: return before `Reader`
  on_goal 2 =>
    refine After_call_ext _ _ (by rfl) _ _ _ _ _ ?_
    intro _ _
    rw [Prog.After_ret]
    simp [StartupShape, pingErrors, producerErrors, managersCreated, registrations]
  on_goal 3 =>
    refine After_call_ext _ _ (by rfl) _ _ _ _ _ ?_
    intro _ _
    rw [Prog.After_ret]
    simp [StartupShape, pingErrors, producerErrors, managersCreated, registrations]
  all_goals
    rw [After_call_register _ _ _ _ _ [] rfl]
    simp only [Registry.register, Registry.topics, List.map_nil, List.not_mem_nil, if_false,
      Prog.bind, List.set_cons_zero, List.nil_append]
  all_goals
    rw [After_call_register _ _ _ _ _ _ rfl]
    simp only [Registry.register, Registry.topics, List.map_cons, List.map_nil,
      List.mem_singleton, String.reduceEq, if_false, Prog.bind, List.set_cons_zero,
      List.singleton_append]
    rw [After_call_register _ _ _ _ _ _ rfl]
    simp only [Registry.register, Registry.topics, List.map_cons, List.map_nil, List.mem_cons,
      List.mem_singleton, String.reduceEq, or_self, if_false, Prog.bind, List.set_cons_zero,
      List.singleton_append, List.cons_append]
    rw [After_call_register _ _ _ _ _ _ rfl]
    simp only [Registry.register, Registry.topics, List.map_cons, List.map_nil, List.mem_cons,
      List.mem_singleton, String.reduceEq, or_self, if_false, Prog.bind, List.set_cons_zero,
      List.singleton_append, List.cons_append]
    refine After_call_ext _ _ (by rfl) _ _ _ _ _ ?_
    intro router e
    refine After_call_ext _ _ (by rfl) _ _ _ _ _ ?_
    intro _ e
    refine After_call_ext _ _ (by rfl) _ _ _ _ _ ?_
    intro serve e
    rcases serve with _ | err <;> simp only []
  all_goals
    refine After_call_ext _ _ (by rfl) _ _ _ _ _ ?_
    intro _ e
    first | rw [Prog.After_panic] | rw [Prog.After_ret]
    simp only [StartupShape]
    refine Or.inr (Or.inr ⟨NewAuthService db, userService, ?_⟩)
    simp [pingErrors, producerErrors, managersCreated, registrations, readerCalls,
      Registry.register, Registry.topics]

theorem registerCalls_eq_map (t : List (Event AppCall AppResp)) :
    registerCalls t = (registrations t).map Prod.fst := by
  induction t with
  | nil => rfl
  | cons ev t ih =>
    obtain ⟨c, r⟩ := ev
    cases c <;> simp_all [registerCalls, registrations, List.filterMap_cons]

/-- Registering keeps at most one registration per topic. -/
theorem Registry.register_nodup (reg : Registry) (args : RegisterArgs)
    (h : reg.topics.Nodup) : (reg.register args).2.topics.Nodup := by
  unfold Registry.register
  split
  · exact h
  · rename_i hnot
    simp only [Registry.topics, List.map_append, List.map_cons, List.map_nil] at hnot ⊢
    rw [List.nodup_append]
    refine ⟨h, List.nodup_singleton _, ?_⟩
    intro a ha hb
    rw [List.mem_singleton] at hb
    exact hnot (hb ▸ ha)

/-- Every call keeps at most one registration per topic in every registry. -/
theorem specManagers_onePerTopic {σ : Type} (w : World AppCall AppResp σ) (c : AppCall)
    (st : Managed σ) (h : OnePerTopic st) : OnePerTopic (specManagers w c st).2 := by
  cases c
  case NewKafkaConsumerManager =>
    intro reg hreg
    simp only [specManagers, List.mem_append, List.mem_singleton] at hreg
    rcases hreg with hreg | rfl
    · exact h reg hreg
    · exact List.nodup_nil
  case RegisterConsumer args =>
    simp only [specManagers]
    split
    · exact h
    · rename_i reg hget
      intro reg' hreg'
      rcases List.mem_or_eq_of_mem_set hreg' with hmem | rfl
      · exact h reg' hmem
      · exact Registry.register_nodup reg args (h reg (List.getElem?_mem hget))
  all_goals exact h

theorem Run_final_eq {σ : Type} (w : World AppCall AppResp σ) (s : σ) (cfg : Config) :
    StartupShape ((Run cfg).run (specManagers w) ⟨s, []⟩).outcome
      ((Run cfg).run (specManagers w) ⟨s, []⟩).trace
      ((Run cfg).run (specManagers w) ⟨s, []⟩).final.managers := by
  have h := Run_shape w s cfg
  simpa [Prog.After] using h

/-- C9 (amended): startup populates the registry at most once, with one registration per
topic.  With managers that follow the spec (created empty; `register` rejects exactly when the
topic is present and inserts otherwise), in every run of `Run` from process start:
after every step each registry has at most one registration per topic; no `RegisterConsumer`
call returns an error, so never the already-registered error; the topics of the four
registrations of `Reader` are pairwise distinct; and
* if the Redis ping fails, `Run` panics with the formatted Redis message, no manager has been
  created and no registration is made;
* if the ping succeeds and `NewKafkaProducer` fails, `Run` returns, exactly one manager has
  been created, no registration is made and its registry is left empty;
* if both succeed, exactly one manager has been created, the registrations made are the four
  of `Reader`, once, on that manager, its registry then holds exactly the registrations for
  `reg-user`, `upd-user`, `upd-pass` and `upd-setting`, and `Run` returns or panics with the
  formatted server message. -/
theorem Run_populates_registry_once {σ : Type} (w : World AppCall AppResp σ) (s : σ)
    (cfg : Config) :
    (∀ st ∈ ((Run cfg).run (specManagers w) ⟨s, []⟩).states, OnePerTopic st)
      ∧ (∀ p ∈ registrations ((Run cfg).run (specManagers w) ⟨s, []⟩).trace, p.2 = none)
      ∧ (∀ brokers kcm authService userService,
          ((readerCalls brokers kcm authService userService).map fun args => args.topic).Nodup)
      ∧ (pingErrors ((Run cfg).run (specManagers w) ⟨s, []⟩).trace ≠ [] →
          ∃ e, pingErrors ((Run cfg).run (specManagers w) ⟨s, []⟩).trace = [e]
            ∧ ((Run cfg).run (specManagers w) ⟨s, []⟩).outcome
              = .panicked ⟨"Failed to connect to Redis: %v", [.err e]⟩
            ∧ managersCreated ((Run cfg).run (specManagers w) ⟨s, []⟩).trace = 0
            ∧ registerCalls ((Run cfg).run (specManagers w) ⟨s, []⟩).trace = []
            ∧ ((Run cfg).run (specManagers w) ⟨s, []⟩).final.managers = [])
      ∧ (pingErrors ((Run cfg).run (specManagers w) ⟨s, []⟩).trace = [] →
          producerErrors ((Run cfg).run (specManagers w) ⟨s, []⟩).trace ≠ [] →
          ((Run cfg).run (specManagers w) ⟨s, []⟩).outcome = .returned ()
            ∧ managersCreated ((Run cfg).run (specManagers w) ⟨s, []⟩).trace = 1
            ∧ registerCalls ((Run cfg).run (specManagers w) ⟨s, []⟩).trace = []
            ∧ ((Run cfg).run (specManagers w) ⟨s, []⟩).final.managers = [[]])
      ∧ (pingErrors ((Run cfg).run (specManagers w) ⟨s, []⟩).trace = [] →
          producerErrors ((Run cfg).run (specManagers w) ⟨s, []⟩).trace = [] →
          managersCreated ((Run cfg).run (specManagers w) ⟨s, []⟩).trace = 1
            ∧ (∃ authService userService,
                registerCalls ((Run cfg).run (specManagers w) ⟨s, []⟩).trace
                  = readerCalls ["kafka:9092"] ⟨0⟩ authService userService
                ∧ ((Run cfg).run (specManagers w) ⟨s, []⟩).final.managers
                  = [[⟨"reg-user", "auth", .UserRegisterHandler authService⟩,
                      ⟨"upd-user", "auth", .UserEditProfileHandler userService⟩,
                      ⟨"upd-pass", "auth", .UserEditPasswordHandler userService⟩,
                      ⟨"upd-setting", "auth", .UserEditSettingHandler userService⟩]])
            ∧ (((Run cfg).run (specManagers w) ⟨s, []⟩).outcome = .returned ()
                ∨ ∃ e, ((Run cfg).run (specManagers w) ⟨s, []⟩).outcome
                    = .panicked ⟨"can't start server: %v", [.err e]⟩)) := by
  refine ⟨?_, ?_⟩
  · refine Prog.run_states_invariant (specManagers w) OnePerTopic
      (specManagers_onePerTopic w) (Run cfg) ⟨s, []⟩ ?_
    intro reg hreg
    simp at hreg
  · have h := Run_final_eq w s cfg
    have hdistinct : ∀ (brokers : List String) (kcm : KafkaConsumerManager)
        (authService : AuthService) (userService : UserService),
        ((readerCalls brokers kcm authService userService).map fun args => args.topic).Nodup := by
      intro brokers kcm authService userService
      simp [readerCalls]
    rw [registerCalls_eq_map]
    rcases h with ⟨e, h1, h2, h3, h4, h5, h6⟩ | ⟨e, h1, h2, h3, h4, h5, h6⟩ |
      ⟨a, u, h1, h2, h3, h4, h5, h6⟩
    · refine ⟨by simp [h4], hdistinct, fun _ => ⟨e, h1, h6, h3, by simp [h4], h5⟩,
        fun hp => ?_, fun hp => ?_⟩
      · simp [h1] at hp
      · simp [h1] at hp
    · refine ⟨by simp [h4], hdistinct, fun hp => ?_,
        fun _ _ => ⟨h6, h3, by simp [h4], h5⟩, fun _ hp => ?_⟩
      · simp [h1] at hp
      · simp [h2] at hp
    · refine ⟨?_, hdistinct, fun hp => ?_, fun _ hp => ?_,
        fun _ _ => ⟨h3, ⟨a, u, ?_, h5⟩, h6⟩⟩
      · rw [h4]
        simp
      · simp [h1] at hp
      · simp [h2] at hp
      · rw [h4]
        simp [Function.comp_def]

/-- Witness for C9 (amended): when every collaborator answers without error the four
registrations are made on the one manager created; when the Redis ping fails `Run` panics
with nothing created; when the producer cannot be created `Run` returns with the manager
left empty. -/
theorem Run_populates_registry_once_witness :
    (managersCreated ((Run exampleConfig).run (specManagers allQuiet) ⟨(), []⟩).trace = 1
      ∧ (∃ authService userService,
          registerCalls ((Run exampleConfig).run (specManagers allQuiet) ⟨(), []⟩).trace
            = readerCalls ["kafka:9092"] ⟨0⟩ authService userService
          ∧ ((Run exampleConfig).run (specManagers allQuiet) ⟨(), []⟩).final.managers
            = [[⟨"reg-user", "auth", .UserRegisterHandler authService⟩,
                ⟨"upd-user", "auth", .UserEditProfileHandler userService⟩,
                ⟨"upd-pass", "auth", .UserEditPasswordHandler userService⟩,
                ⟨"upd-setting", "auth", .UserEditSettingHandler userService⟩]])
      ∧ (((Run exampleConfig).run (specManagers allQuiet) ⟨(), []⟩).outcome = .returned ()
          ∨ ∃ e, ((Run exampleConfig).run (specManagers allQuiet) ⟨(), []⟩).outcome
              = .panicked ⟨"can't start server: %v", [.err e]⟩))
    ∧ (∃ e, pingErrors ((Run exampleConfig).run (specManagers redisDown) ⟨(), []⟩).trace = [e]
        ∧ ((Run exampleConfig).run (specManagers redisDown) ⟨(), []⟩).outcome
          = .panicked ⟨"Failed to connect to Redis: %v", [.err e]⟩
        ∧ managersCreated ((Run exampleConfig).run (specManagers redisDown) ⟨(), []⟩).trace = 0
        ∧ registerCalls ((Run exampleConfig).run (specManagers redisDown) ⟨(), []⟩).trace = []
        ∧ ((Run exampleConfig).run (specManagers redisDown) ⟨(), []⟩).final.managers = [])
    ∧ (((Run exampleConfig).run (specManagers producerDown) ⟨(), []⟩).outcome = .returned ()
        ∧ managersCreated
            ((Run exampleConfig).run (specManagers producerDown) ⟨(), []⟩).trace = 1
        ∧ registerCalls
            ((Run exampleConfig).run (specManagers producerDown) ⟨(), []⟩).trace = []
        ∧ ((Run exampleConfig).run (specManagers producerDown) ⟨(), []⟩).final.managers
          = [[]]) :=
  ⟨(Run_populates_registry_once allQuiet () exampleConfig).2.2.2.2.2 (by decide) (by decide),
    (Run_populates_registry_once redisDown () exampleConfig).2.2.2.1 (by decide),
    (Run_populates_registry_once producerDown () exampleConfig).2.2.2.2.1 (by decide)
      (by decide)⟩

/-- C9 as stated fails: when `NewKafkaProducer` returns an error, `Run` has created the
manager but returns without calling `Reader`; no registration is made and the registry of the
manager is left empty. -/
theorem Run_producer_down_registers_nothing :
    ((Run exampleConfig).run (specManagers producerDown) ⟨(), []⟩).outcome = .returned ()
      ∧ managersCreated
          ((Run exampleConfig).run (specManagers producerDown) ⟨(), []⟩).trace = 1
      ∧ registerCalls ((Run exampleConfig).run (specManagers producerDown) ⟨(), []⟩).trace = []
      ∧ ((Run exampleConfig).run (specManagers producerDown) ⟨(), []⟩).final.managers
        = [[]] := by
  decide

/-! ## The mutation handlers -/

section HandlerTheorems

variable {ρ : Type} {σ : Type}

/-- From `json.Marshal` on, the three handlers run the same code: encode, publish, respond. -/
theorem dispatch_after (w : World (GinCall ρ) (GinResp ρ) σ) (h : Handlers) (topic : String)
    (v : Payload ρ) (okMessage : String) (s : σ) (pre : List (Event (GinCall ρ) (GinResp ρ)))
    (P : List (Event (GinCall ρ) (GinResp ρ)) → Prop)
    (hP : ∀ rest, DispatchTrace h topic v okMessage rest → P (pre ++ rest)) :
    Prog.After w
      ((Prog.call (GinCall.jsonMarshal v) fun enc =>
        match enc with
        | .error _ =>
          Prog.call (GinCall.cJSON StatusBadRequest (.H "error" "internal server error"))
            Prog.ret
        | .ok input =>
          Prog.call (GinCall.ProduceMessages h.Producer topic input) fun sent =>
            match sent with
            | some _ =>
              Prog.call
                (GinCall.cJSON StatusInternalServerError (.H "error" "internal server error"))
                Prog.ret
            | none => Prog.call (GinCall.cJSON StatusOK (.H "message" okMessage)) Prog.ret) :
        Gin ρ Unit)
      s pre (fun _ _ t => P t) := by
  refine Prog.After_call_any _ _ _ _ _ _ ?_
  intro enc _
  rcases enc with err | input <;> simp only []
  · refine Prog.After_call_any _ _ _ _ _ _ ?_
    intro _ _
    simp only [Prog.After_ret, List.append_assoc]
    exact hP _ (Or.inl ⟨err, rfl⟩)
  · refine Prog.After_call_any _ _ _ _ _ _ ?_
    intro sent _
    rcases sent with _ | err <;> simp only []
    · refine Prog.After_call_any _ _ _ _ _ _ ?_
      intro _ _
      simp only [Prog.After_ret, List.append_assoc]
      exact hP _ (Or.inr (Or.inr ⟨input, rfl⟩))
    · refine Prog.After_call_any _ _ _ _ _ _ ?_
      intro _ _
      simp only [Prog.After_ret, List.append_assoc]
      exact hP _ (Or.inr (Or.inl ⟨input, err, rfl⟩))

theorem EditSetting_trace (w : World (GinCall ρ) (GinResp ρ) σ) (s : σ) (h : Handlers) :
    EditSettingTrace h ((EditSetting h : Gin ρ Unit).run w s).trace := by
  have key : (EditSetting h : Gin ρ Unit).After w s [] (fun _ _ t => EditSettingTrace h t) := by
    simp only [EditSetting, getuserId, ShouldBindJSON, logPrintln, jsonMarshal,
      ProduceMessages, cJSON, bind, Prog.bind, Prog.perform]
    refine Prog.After_call_any _ _ _ _ _ _ ?_
    intro uid _
    refine Prog.After_call_any _ _ _ _ _ _ ?_
    intro bound _
    rcases bound with err | body <;> simp only [Prog.bind]
    · refine Prog.After_call_any _ _ _ _ _ _ ?_
      intro _ _
      refine Prog.After_call_any _ _ _ _ _ _ ?_
      intro _ _
      rw [Prog.After_ret]
      exact ⟨uid, Or.inl ⟨err, rfl⟩⟩
    · convert dispatch_after w h "upd-setting" (settingPayload uid body)
        ("Setting for user " ++ uid ++ " updated successfully") _ _ (EditSettingTrace h) ?_
        using 3
      · rename_i enc
        rcases enc with _ | _
        · rfl
        · show Prog.call _ _ = Prog.call _ _
          refine congrArg _ (funext fun sent => ?_)
          cases sent <;> rfl
      · intro rest hrest
        exact ⟨uid, Or.inr ⟨body, rest, rfl, hrest⟩⟩
  simpa [Prog.After] using key

theorem EditProfile_trace [Inhabited ρ] (w : World (GinCall ρ) (GinResp ρ) σ) (s : σ) (h : Handlers) :
    EditProfileTrace h ((EditProfile h : Gin ρ Unit).run w s).trace := by
  have key : (EditProfile h : Gin ρ Unit).After w s [] (fun _ _ t => EditProfileTrace h t) := by
    simp only [EditProfile, getuserId, ShouldBindJSON, logPrintln, jsonMarshal,
      ProduceMessages, cJSON, bind, Prog.bind, Prog.perform]
    refine Prog.After_call_any _ _ _ _ _ _ ?_
    intro uid _
    refine Prog.After_call_any _ _ _ _ _ _ ?_
    intro bound _
    rcases bound with err | body <;> simp only [Prog.bind]
    · refine Prog.After_call_any _ _ _ _ _ _ ?_
      intro _ _
      refine Prog.After_call_any _ _ _ _ _ _ ?_
      intro _ _
      rw [Prog.After_ret]
      exact ⟨uid, Or.inl ⟨err, rfl⟩⟩
    · convert dispatch_after w h "upd-user" (profilePayload uid body)
        ("Profile for user " ++ uid ++ " updated successfully") _ _ (EditProfileTrace h) ?_
        using 3
      · rename_i enc
        rcases enc with _ | _
        · rfl
        · show Prog.call _ _ = Prog.call _ _
          refine congrArg _ (funext fun sent => ?_)
          cases sent <;> rfl
      · intro rest hrest
        exact ⟨uid, Or.inr ⟨body, rest, rfl, hrest⟩⟩
  simpa [Prog.After] using key

theorem ChangePassword_trace (w : World (GinCall ρ) (GinResp ρ) σ) (s : σ) (h : Handlers) :
    ChangePasswordTrace h ((ChangePassword h : Gin ρ Unit).run w s).trace := by
  have key : (ChangePassword h : Gin ρ Unit).After w s []
      (fun _ _ t => ChangePasswordTrace h t) := by
    simp only [ChangePassword, getuserId, ShouldBindJSON, logPrintln, logPrintf, HashPassword,
      jsonMarshal, ProduceMessages, cJSON, bind, Prog.bind, Prog.perform]
    refine Prog.After_call_any _ _ _ _ _ _ ?_
    intro uid _
    refine Prog.After_call_any _ _ _ _ _ _ ?_
    intro bound _
    rcases bound with err | body <;> simp only [Prog.bind]
    · refine Prog.After_call_any _ _ _ _ _ _ ?_
      intro _ _
      refine Prog.After_call_any _ _ _ _ _ _ ?_
      intro _ _
      rw [Prog.After_ret]
      exact ⟨uid, Or.inl ⟨err, rfl⟩⟩
    · refine Prog.After_call_any _ _ _ _ _ _ ?_
      intro hashResult _
      rcases hashResult with err | hash <;> simp only [Prog.bind]
      · refine Prog.After_call_any _ _ _ _ _ _ ?_
        intro _ _
        refine Prog.After_call_any _ _ _ _ _ _ ?_
        intro _ _
        rw [Prog.After_ret]
        exact ⟨uid, Or.inr (Or.inl ⟨body, err, rfl⟩)⟩
      · convert dispatch_after w h "upd-pass" (passwordPayload uid body hash)
          "Password updated successfully" _ _ (ChangePasswordTrace h) ?_ using 3
        · rename_i enc
          rcases enc with _ | _
          · rfl
          · show Prog.call _ _ = Prog.call _ _
            refine congrArg _ (funext fun sent => ?_)
            cases sent <;> rfl
        · intro rest hrest
          exact ⟨uid, Or.inr (Or.inr ⟨body, hash, rest, rfl, hrest⟩)⟩
  simpa [Prog.After] using key

/-- C10: rejected requests publish nothing.  For each of `EditProfile`, `ChangePassword` and
`EditSetting`: if `ShouldBindJSON` returns an error, the only response sent is status 400 with
body `error: Invalid request body`, and `ProduceMessages` is not called. -/
theorem rejected_request_publishes_nothing [Inhabited ρ] (m : Mutation)
    (w : World (GinCall ρ) (GinResp ρ) σ) (s : σ) (h : Handlers)
    (hbind : bindErrors ((m.handler h : Gin ρ Unit).run w s).trace ≠ []) :
    responses ((m.handler h : Gin ρ Unit).run w s).trace
        = [(StatusBadRequest, .H "error" "Invalid request body")]
      ∧ published ((m.handler h : Gin ρ Unit).run w s).trace = [] := by
  cases m
  · obtain ⟨uid, ⟨err, ht⟩ | ⟨body, rest, ht, hrest⟩⟩ := EditProfile_trace w s h
    · simp [Mutation.handler, ht, rejectedTrace, responses, published]
    · rcases hrest with ⟨e, rfl⟩ | ⟨input, e, rfl⟩ | ⟨input, rfl⟩ <;>
        simp [Mutation.handler, ht, bindErrors] at hbind
  · obtain ⟨uid, ⟨err, ht⟩ | ⟨body, err, ht⟩ | ⟨body, hash, rest, ht, hrest⟩⟩ :=
      ChangePassword_trace w s h
    · simp [Mutation.handler, ht, rejectedTrace, responses, published]
    · simp [Mutation.handler, ht, bindErrors] at hbind
    · rcases hrest with ⟨e, rfl⟩ | ⟨input, e, rfl⟩ | ⟨input, rfl⟩ <;>
        simp [Mutation.handler, ht, bindErrors] at hbind
  · obtain ⟨uid, ⟨err, ht⟩ | ⟨body, rest, ht, hrest⟩⟩ := EditSetting_trace w s h
    · simp [Mutation.handler, ht, rejectedTrace, responses, published]
    · rcases hrest with ⟨e, rfl⟩ | ⟨input, e, rfl⟩ | ⟨input, rfl⟩ <;>
        simp [Mutation.handler, ht, bindErrors] at hbind

/-- C2: a publish failure is never reported as success.  For each of `EditProfile`,
`ChangePassword` and `EditSetting`: if a `ProduceMessages` call returns an error, the only
response sent is status 500; and if a response with status 200 is sent, `ProduceMessages` was
called once and returned no error. -/
theorem publish_failure_is_never_success [Inhabited ρ] (m : Mutation)
    (w : World (GinCall ρ) (GinResp ρ) σ) (s : σ) (h : Handlers) :
    (∀ err, some err ∈ publishResults ((m.handler h : Gin ρ Unit).run w s).trace →
        responses ((m.handler h : Gin ρ Unit).run w s).trace
          = [(StatusInternalServerError, .H "error" "internal server error")])
      ∧ (∀ obj, (StatusOK, obj) ∈ responses ((m.handler h : Gin ρ Unit).run w s).trace →
          publishResults ((m.handler h : Gin ρ Unit).run w s).trace = [none]) := by
  cases m
  · obtain ⟨uid, ⟨err, ht⟩ | ⟨body, rest, ht, hrest⟩⟩ := EditProfile_trace w s h
    · simp [Mutation.handler, ht, rejectedTrace, responses, publishResults, StatusOK,
        StatusBadRequest]
    · rcases hrest with ⟨e, rfl⟩ | ⟨input, e, rfl⟩ | ⟨input, rfl⟩ <;>
        simp [Mutation.handler, ht, responses, publishResults, StatusOK, StatusBadRequest,
          StatusInternalServerError]
  · obtain ⟨uid, ⟨err, ht⟩ | ⟨body, err, ht⟩ | ⟨body, hash, rest, ht, hrest⟩⟩ :=
      ChangePassword_trace w s h
    · simp [Mutation.handler, ht, rejectedTrace, responses, publishResults, StatusOK,
        StatusBadRequest]
    · simp [Mutation.handler, ht, responses, publishResults, StatusOK,
        StatusInternalServerError]
    · rcases hrest with ⟨e, rfl⟩ | ⟨input, e, rfl⟩ | ⟨input, rfl⟩ <;>
        simp [Mutation.handler, ht, responses, publishResults, StatusOK, StatusBadRequest,
          StatusInternalServerError]
  · obtain ⟨uid, ⟨err, ht⟩ | ⟨body, rest, ht, hrest⟩⟩ := EditSetting_trace w s h
    · simp [Mutation.handler, ht, rejectedTrace, responses, publishResults, StatusOK,
        StatusBadRequest]
    · rcases hrest with ⟨e, rfl⟩ | ⟨input, e, rfl⟩ | ⟨input, rfl⟩ <;>
        simp [Mutation.handler, ht, responses, publishResults, StatusOK, StatusBadRequest,
          StatusInternalServerError]

/-- Witness for C10: with a body that does not bind, `EditSetting` answers 400 and publishes
nothing. -/
theorem rejected_request_publishes_nothing_witness :
    responses ((Mutation.EditSetting.handler exampleHandlers : Gin Unit Unit).run
        badBody.world ()).trace
        = [(StatusBadRequest, .H "error" "Invalid request body")]
      ∧ published ((Mutation.EditSetting.handler exampleHandlers : Gin Unit Unit).run
          badBody.world ()).trace = [] :=
  rejected_request_publishes_nothing .EditSetting badBody.world () exampleHandlers (by decide)

/-- Witness for C2: when the broker rejects the write `ChangePassword` answers 500, and when
`EditProfile` answers 200 the publish returned no error. -/
theorem publish_failure_is_never_success_witness :
    responses ((Mutation.ChangePassword.handler exampleHandlers : Gin Unit Unit).run
        brokerDown.world ()).trace
        = [(StatusInternalServerError, .H "error" "internal server error")]
      ∧ publishResults ((Mutation.EditProfile.handler exampleHandlers : Gin Unit Unit).run
          allGood.world ()).trace = [none] :=
  ⟨(publish_failure_is_never_success .ChangePassword brokerDown.world () exampleHandlers).1
      (.other "broker unreachable") (by decide),
    (publish_failure_is_never_success .EditProfile allGood.world () exampleHandlers).2
      (.H "message" "Profile for user 42 updated successfully") (by decide)⟩

/-- The first two calls of `EditSetting` are `getuserId` and `ShouldBindJSON`, with what the
environment answered. -/
theorem EditSetting_head (w : World (GinCall ρ) (GinResp ρ) σ) (s : σ) (h : Handlers) :
    ∃ rest, ((EditSetting h : Gin ρ Unit).run w s).trace
      = ⟨.getuserId, (w .getuserId s).1⟩
        :: ⟨.ShouldBindJSON .Setting, (w (.ShouldBindJSON .Setting) (w .getuserId s).2).1⟩
        :: rest := by
  simp only [EditSetting, getuserId, ShouldBindJSON, Prog.run_bind, Prog.run_perform]
  exact ⟨_, rfl⟩

/-- The first two calls of `EditProfile` are `getuserId` and `ShouldBindJSON`, with what the
environment answered. -/
theorem EditProfile_head [Inhabited ρ] (w : World (GinCall ρ) (GinResp ρ) σ) (s : σ) (h : Handlers) :
    ∃ rest, ((EditProfile h : Gin ρ Unit).run w s).trace
      = ⟨.getuserId, (w .getuserId s).1⟩
        :: ⟨.ShouldBindJSON .EditProfileReqBpdy, (w (.ShouldBindJSON .EditProfileReqBpdy) (w .getuserId s).2).1⟩
        :: rest := by
  simp only [EditProfile, getuserId, ShouldBindJSON, Prog.run_bind, Prog.run_perform]
  exact ⟨_, rfl⟩

/-- The first two calls of `ChangePassword` are `getuserId` and `ShouldBindJSON`, with what the
environment answered. -/
theorem ChangePassword_head (w : World (GinCall ρ) (GinResp ρ) σ) (s : σ) (h : Handlers) :
    ∃ rest, ((ChangePassword h : Gin ρ Unit).run w s).trace
      = ⟨.getuserId, (w .getuserId s).1⟩
        :: ⟨.ShouldBindJSON .ChangePasswordReqBody, (w (.ShouldBindJSON .ChangePasswordReqBody) (w .getuserId s).2).1⟩
        :: rest := by
  simp only [ChangePassword, getuserId, ShouldBindJSON, Prog.run_bind, Prog.run_perform]
  exact ⟨_, rfl⟩

/-- C3: for every request body that binds (no `ShouldBindJSON` error in the run; and that
`json.Marshal` encodes), `EditSetting` makes exactly one publish, to topic `upd-setting`, of
the bytes `json.Marshal` returned for the `SettingReq` whose `Id` is the user id `getuserId`
answered and whose `PrivacyLevel`, `Notification`, `Language` and `Theme` are those of the
body the environment bound; that `SettingReq` is the only value it encodes. -/
theorem EditSetting_publishes_settings (w : World (GinCall ρ) (GinResp ρ) σ) (s : σ)
    (h : Handlers)
    (hbind : bindErrors ((EditSetting h : Gin ρ Unit).run w s).trace = [])
    (henc : marshalErrors ((EditSetting h : Gin ρ Unit).run w s).trace = []) :
    ∃ (body : Setting) (input : Bytes),
      (w (.ShouldBindJSON .Setting) (w .getuserId s).2).1 = .ok body
      ∧ encoded ((EditSetting h : Gin ρ Unit).run w s).trace
        = [(.SettingReq
              { Id := (w .getuserId s).1
                PrivacyLevel := body.PrivacyLevel
                Notification := body.Notification
                Language := body.Language
                Theme := body.Theme }, .ok input)]
      ∧ published ((EditSetting h : Gin ρ Unit).run w s).trace
        = [(h.Producer, "upd-setting", input)] := by
  obtain ⟨rest0, hhead⟩ := EditSetting_head w s h
  obtain ⟨uid, ⟨err, ht⟩ | ⟨body, rest, ht, hrest⟩⟩ := EditSetting_trace w s h
  · simp [ht, rejectedTrace, bindErrors] at hbind
  · rw [ht] at hhead
    simp only [List.cons.injEq, Event.mk.injEq, heq_eq_eq, true_and] at hhead
    obtain ⟨huid, hbody, -⟩ := hhead
    subst huid
    rcases hrest with ⟨e, rfl⟩ | ⟨input, e, rfl⟩ | ⟨input, rfl⟩
    · simp [ht, marshalErrors] at henc
    · exact ⟨body, input, hbody.symm, by simp [ht, encoded, published, settingPayload]⟩
    · exact ⟨body, input, hbody.symm, by simp [ht, encoded, published, settingPayload]⟩

/-- Witness for C3: user 42 with body privacy `private`, notifications on, language `en`,
theme `dark` yields one publish to `upd-setting` of the encoding of exactly those five
values. -/
theorem EditSetting_publishes_settings_witness :
    ∃ input : Bytes,
      encoded ((EditSetting exampleHandlers : Gin Unit Unit).run allGood.world ()).trace
        = [(.SettingReq
              { Id := "42"
                PrivacyLevel := "private"
                Notification := true
                Language := "en"
                Theme := "dark" }, .ok input)]
      ∧ published ((EditSetting exampleHandlers : Gin Unit Unit).run allGood.world ()).trace
        = [(exampleHandlers.Producer, "upd-setting", input)] := by
  obtain ⟨body, input, hbody, henc, hpub⟩ :=
    EditSetting_publishes_settings allGood.world () exampleHandlers (by decide) (by decide)
  cases hbody
  exact ⟨input, henc, hpub⟩

/-- C5: for every request body that binds (no `ShouldBindJSON` error in the run; and that
`json.Marshal` encodes), `EditProfile` makes exactly one publish, to topic `upd-user`, of the
bytes `json.Marshal` returned for the `UserRes` whose `Id` is the user id `getuserId`
answered, whose `FirstName`, `LastName`, `Email` and `PhoneNumber` are the fields of the same
name of the body the environment bound, and whose remaining fields have their zero value;
that `UserRes` is the only value it encodes. -/
theorem EditProfile_publishes_profile [Inhabited ρ] (w : World (GinCall ρ) (GinResp ρ) σ)
    (s : σ) (h : Handlers)
    (hbind : bindErrors ((EditProfile h : Gin ρ Unit).run w s).trace = [])
    (henc : marshalErrors ((EditProfile h : Gin ρ Unit).run w s).trace = []) :
    ∃ (body : EditProfileReqBpdy) (input : Bytes),
      (w (.ShouldBindJSON .EditProfileReqBpdy) (w .getuserId s).2).1 = .ok body
      ∧ encoded ((EditProfile h : Gin ρ Unit).run w s).trace
        = [(.UserRes
              { Id := (w .getuserId s).1
                FirstName := body.FirstName
                LastName := body.LastName
                Email := body.Email
                PhoneNumber := body.PhoneNumber
                Rest := default }, .ok input)]
      ∧ published ((EditProfile h : Gin ρ Unit).run w s).trace
        = [(h.Producer, "upd-user", input)] := by
  obtain ⟨rest0, hhead⟩ := EditProfile_head w s h
  obtain ⟨uid, ⟨err, ht⟩ | ⟨body, rest, ht, hrest⟩⟩ := EditProfile_trace w s h
  · simp [ht, rejectedTrace, bindErrors] at hbind
  · rw [ht] at hhead
    simp only [List.cons.injEq, Event.mk.injEq, heq_eq_eq, true_and] at hhead
    obtain ⟨huid, hbody, -⟩ := hhead
    subst huid
    rcases hrest with ⟨e, rfl⟩ | ⟨input, e, rfl⟩ | ⟨input, rfl⟩
    · simp [ht, marshalErrors] at henc
    · exact ⟨body, input, hbody.symm, by simp [ht, encoded, published, profilePayload]⟩
    · exact ⟨body, input, hbody.symm, by simp [ht, encoded, published, profilePayload]⟩

/-- Witness for C5: user 42 editing the profile to Ada Lovelace. -/
theorem EditProfile_publishes_profile_witness :
    ∃ input : Bytes,
      encoded ((EditProfile exampleHandlers : Gin Unit Unit).run allGood.world ()).trace
        = [(.UserRes
              { Id := "42"
                FirstName := "Ada"
                LastName := "Lovelace"
                Email := "ada@example.org"
                PhoneNumber := "+44 20 7946 0000"
                Rest := () }, .ok input)]
      ∧ published ((EditProfile exampleHandlers : Gin Unit Unit).run allGood.world ()).trace
        = [(exampleHandlers.Producer, "upd-user", input)] := by
  obtain ⟨body, input, hbody, henc, hpub⟩ :=
    EditProfile_publishes_profile allGood.world () exampleHandlers (by decide) (by decide)
  cases hbody
  exact ⟨input, henc, hpub⟩

/-- C4: for every request body that binds (no `ShouldBindJSON` error in the run),
`ChangePassword` calls `HashPassword` exactly once, on the new password of the body the
environment bound.  If the hash is returned (and `json.Marshal` encodes), it makes exactly one publish, to topic `upd-pass`, of the bytes `json.Marshal`
returned for the `ChangePasswordReq` whose `Id` is the user id `getuserId` answered, whose
`CurrentPassword` is the current password of the body as received, and whose `NewPassword` is
the value `HashPassword` returned; the plaintext new password goes to `HashPassword` only.
If `HashPassword` fails, nothing is encoded or published and the only response is
status 500. -/
theorem ChangePassword_publishes_hash (w : World (GinCall ρ) (GinResp ρ) σ) (s : σ)
    (h : Handlers)
    (hbind : bindErrors ((ChangePassword h : Gin ρ Unit).run w s).trace = []) :
    ∃ (body : ChangePasswordReqBody) (hashResult : Except Error String),
      (w (.ShouldBindJSON .ChangePasswordReqBody) (w .getuserId s).2).1 = .ok body
      ∧ hashed ((ChangePassword h : Gin ρ Unit).run w s).trace
        = [(body.NewPassword, hashResult)]
      ∧ (∀ hash, hashResult = .ok hash →
          marshalErrors ((ChangePassword h : Gin ρ Unit).run w s).trace = [] →
          ∃ input : Bytes,
            encoded ((ChangePassword h : Gin ρ Unit).run w s).trace
              = [(.ChangePasswordReq
                    { Id := (w .getuserId s).1
                      CurrentPassword := body.CurrentPassword
                      NewPassword := hash }, .ok input)]
            ∧ published ((ChangePassword h : Gin ρ Unit).run w s).trace
              = [(h.Producer, "upd-pass", input)])
      ∧ (∀ err, hashResult = .error err →
          encoded ((ChangePassword h : Gin ρ Unit).run w s).trace = []
          ∧ published ((ChangePassword h : Gin ρ Unit).run w s).trace = []
          ∧ responses ((ChangePassword h : Gin ρ Unit).run w s).trace
            = [(StatusInternalServerError, .H "error" "internal server error")]) := by
  obtain ⟨rest0, hhead⟩ := ChangePassword_head w s h
  obtain ⟨uid, ⟨err, ht⟩ | ⟨body, err, ht⟩ | ⟨body, hash, rest, ht, hrest⟩⟩ :=
    ChangePassword_trace w s h
  · simp [ht, rejectedTrace, bindErrors] at hbind
  · rw [ht] at hhead
    simp only [List.cons.injEq, Event.mk.injEq, heq_eq_eq, true_and] at hhead
    obtain ⟨huid, hbody, -⟩ := hhead
    subst huid
    refine ⟨body, .error err, hbody.symm, by simp [ht, hashed], ?_, ?_⟩
    · intro hash hh
      cases hh
    · intro err' _
      simp [ht, encoded, published, responses]
  · rw [ht] at hhead
    simp only [List.cons.injEq, Event.mk.injEq, heq_eq_eq, true_and] at hhead
    obtain ⟨huid, hbody, -⟩ := hhead
    subst huid
    rcases hrest with ⟨e, rfl⟩ | ⟨input, e, rfl⟩ | ⟨input, rfl⟩
    · refine ⟨body, .ok hash, hbody.symm, by simp [ht, hashed], ?_, ?_⟩
      · intro hash' _ henc
        simp [ht, marshalErrors] at henc
      · intro err' hh
        cases hh
    · refine ⟨body, .ok hash, hbody.symm, by simp [ht, hashed], ?_, ?_⟩
      · intro hash' hh _
        cases hh
        exact ⟨input, by simp [ht, encoded, published, passwordPayload]⟩
      · intro err' hh
        cases hh
    · refine ⟨body, .ok hash, hbody.symm, by simp [ht, hashed], ?_, ?_⟩
      · intro hash' hh _
        cases hh
        exact ⟨input, by simp [ht, encoded, published, passwordPayload]⟩
      · intro err' hh
        cases hh

/-- Witness for C4: user 42 changing `old-secret` to `new-secret`; the payload carries the
current password as received and the hash of the new one; and when hashing fails nothing is
published and the response is 500. -/
theorem ChangePassword_publishes_hash_witness :
    (∃ input : Bytes,
        hashed ((ChangePassword exampleHandlers : Gin Unit Unit).run allGood.world ()).trace
          = [("new-secret", .ok "$2a$10$new-secret")]
        ∧ encoded ((ChangePassword exampleHandlers : Gin Unit Unit).run allGood.world ()).trace
          = [(.ChangePasswordReq
                { Id := "42"
                  CurrentPassword := "old-secret"
                  NewPassword := "$2a$10$new-secret" }, .ok input)]
        ∧ published ((ChangePassword exampleHandlers : Gin Unit Unit).run allGood.world ()).trace
          = [(exampleHandlers.Producer, "upd-pass", input)])
      ∧ (encoded ((ChangePassword exampleHandlers : Gin Unit Unit).run hashFails.world ()).trace
          = []
        ∧ published ((ChangePassword exampleHandlers : Gin Unit Unit).run
            hashFails.world ()).trace = []
        ∧ responses ((ChangePassword exampleHandlers : Gin Unit Unit).run
            hashFails.world ()).trace
          = [(StatusInternalServerError, .H "error" "internal server error")]) := by
  constructor
  · obtain ⟨body, hashResult, hbody, hhash, hok, -⟩ :=
      ChangePassword_publishes_hash allGood.world () exampleHandlers (by decide)
    cases hbody
    have hrun : hashed ((ChangePassword exampleHandlers : Gin Unit Unit).run
        allGood.world ()).trace = [("new-secret", .ok "$2a$10$new-secret")] := rfl
    rw [hrun] at hhash
    simp only [List.cons.injEq, Prod.mk.injEq, and_true] at hhash
    obtain ⟨input, henc, hpub⟩ := hok "$2a$10$new-secret" hhash.2.symm (by decide)
    exact ⟨input, hrun, henc, hpub⟩
  · obtain ⟨body, hashResult, hbody, hhash, -, herr⟩ :=
      ChangePassword_publishes_hash hashFails.world () exampleHandlers (by decide)
    have hrun : hashed ((ChangePassword exampleHandlers : Gin Unit Unit).run
        hashFails.world ()).trace = [("new-secret", .error (.other "password too long"))] := rfl
    rw [hrun] at hhash
    simp only [List.cons.injEq, Prod.mk.injEq, and_true] at hhash
    exact herr (.other "password too long") hhash.2.symm

theorem Prog.Avoids_call {C : Type} {R : C → Type} {α : Type} (bad : C → Bool) (c : C)
    (k : R c → Prog C R α) :
    (Prog.call c k).Avoids bad ↔ bad c = false ∧ ∀ r, (k r).Avoids bad := Iff.rfl

theorem Prog.Avoids_ret {C : Type} {R : C → Type} {α : Type} (bad : C → Bool) (a : α) :
    (Prog.ret a : Prog C R α).Avoids bad ↔ True := Iff.rfl

/-- A program that never makes a marked call runs the same in two environments that agree on
the unmarked calls. -/
theorem Prog.run_congr_of_avoids {C : Type} {R : C → Type} {α τ : Type} (bad : C → Bool)
    (w w' : World C R τ) (hw : ∀ c, bad c = false → w' c = w c) (p : Prog C R α)
    (hp : p.Avoids bad) (s : τ) : p.run w' s = p.run w s := by
  induction p generalizing s with
  | ret a => rfl
  | call c k ih =>
    obtain ⟨hc, hk⟩ := hp
    simp only [Prog.run, hw c hc]
    rw [ih _ (hk _)]
  | panic msg => rfl

theorem Mutation.handler_avoids_domain [Inhabited ρ] (m : Mutation) (h : Handlers) :
    (m.handler h : Gin ρ Unit).Avoids GinCall.isDomainCall := by
  cases m <;>
    simp only [Mutation.handler, LibraryAuth.EditProfile, LibraryAuth.ChangePassword,
      LibraryAuth.EditSetting, getuserId,
      ShouldBindJSON, logPrintln, logPrintf, HashPassword, jsonMarshal, ProduceMessages, cJSON,
      bind, Prog.bind, Prog.perform]
  all_goals
    repeat' first
      | rw [Prog.Avoids_ret]
      | (rw [Prog.Avoids_call]; refine ⟨rfl, fun _ => ?_⟩)
      | split
      | exact True.intro

/-- C7: the mutation path is fire-and-forget.  On every run of `EditProfile`, `ChangePassword`
and `EditSetting`: no call on a domain service is made; `ProduceMessages` is called at most
once, and exactly once when the body binds and neither hashing nor encoding fails; and the
whole run, the responses sent included, is the same in any two environments that differ only
in what the domain services would answer. -/
theorem mutation_is_fire_and_forget [Inhabited ρ] (m : Mutation)
    (w : World (GinCall ρ) (GinResp ρ) σ)
    (s : σ) (h : Handlers) :
    domainCalls ((m.handler h : Gin ρ Unit).run w s).trace = []
      ∧ (published ((m.handler h : Gin ρ Unit).run w s).trace).length ≤ 1
      ∧ (bindErrors ((m.handler h : Gin ρ Unit).run w s).trace = [] →
          hashErrors ((m.handler h : Gin ρ Unit).run w s).trace = [] →
          marshalErrors ((m.handler h : Gin ρ Unit).run w s).trace = [] →
          (published ((m.handler h : Gin ρ Unit).run w s).trace).length = 1)
      ∧ (∀ w' : World (GinCall ρ) (GinResp ρ) σ,
          (∀ c, c.isDomainCall = false → w' c = w c) →
          (m.handler h : Gin ρ Unit).run w' s = (m.handler h : Gin ρ Unit).run w s) := by
  refine ⟨?_, ?_, ?_, fun w' hw =>
    Prog.run_congr_of_avoids _ w w' hw _ (m.handler_avoids_domain h) s⟩
  all_goals cases m
  all_goals
    first
      | (obtain ⟨uid, ⟨err, ht⟩ | ⟨body, rest, ht, hrest⟩⟩ := EditProfile_trace w s h
         · simp [Mutation.handler, ht, rejectedTrace, domainCalls, published, bindErrors,
             GinCall.isDomainCall]
         · rcases hrest with ⟨e, rfl⟩ | ⟨input, e, rfl⟩ | ⟨input, rfl⟩ <;>
             simp [Mutation.handler, ht, domainCalls, published, marshalErrors,
               GinCall.isDomainCall])
      | (obtain ⟨uid, ⟨err, ht⟩ | ⟨body, err, ht⟩ | ⟨body, hash, rest, ht, hrest⟩⟩ :=
           ChangePassword_trace w s h
         · simp [Mutation.handler, ht, rejectedTrace, domainCalls, published, bindErrors,
             GinCall.isDomainCall]
         · simp [Mutation.handler, ht, domainCalls, published, hashErrors,
             GinCall.isDomainCall]
         · rcases hrest with ⟨e, rfl⟩ | ⟨input, e, rfl⟩ | ⟨input, rfl⟩ <;>
             simp [Mutation.handler, ht, domainCalls, published, marshalErrors,
               GinCall.isDomainCall])
      | (obtain ⟨uid, ⟨err, ht⟩ | ⟨body, rest, ht, hrest⟩⟩ := EditSetting_trace w s h
         · simp [Mutation.handler, ht, rejectedTrace, domainCalls, published, bindErrors,
             GinCall.isDomainCall]
         · rcases hrest with ⟨e, rfl⟩ | ⟨input, e, rfl⟩ | ⟨input, rfl⟩ <;>
             simp [Mutation.handler, ht, domainCalls, published, marshalErrors,
               GinCall.isDomainCall])

/-- Witness for C7: with a body that binds and hashing and encoding that succeed,
`ChangePassword` publishes exactly once, and its run is the same whether the domain services
are available or not. -/
theorem mutation_is_fire_and_forget_witness :
    (published ((Mutation.ChangePassword.handler exampleHandlers : Gin Unit Unit).run
        allGood.world ()).trace).length = 1
      ∧ (Mutation.ChangePassword.handler exampleHandlers : Gin Unit Unit).run
          domainDown.world ()
        = (Mutation.ChangePassword.handler exampleHandlers : Gin Unit Unit).run
          allGood.world () :=
  ⟨(mutation_is_fire_and_forget .ChangePassword allGood.world () exampleHandlers).2.2.1
      (by decide) (by decide) (by decide),
    (mutation_is_fire_and_forget .ChangePassword allGood.world () exampleHandlers).2.2.2
      domainDown.world (by
        intro c hc
        cases c <;> first | rfl | exact absurd hc (by simp [GinCall.isDomainCall]))⟩

/-- The read handlers are not fire-and-forget: what `GetProfile` sends depends on what the
domain service answers. -/
theorem GetProfile_depends_on_domain :
    responses ((GetProfile exampleHandlers : Gin Unit Unit).run allGood.world ()).trace
        = [(StatusOK, .profile ⟨"42", "", "", "", "", ()⟩)]
      ∧ responses ((GetProfile exampleHandlers : Gin Unit Unit).run domainDown.world ()).trace
        = [(StatusInternalServerError, .H "error" "internal server error")]
      ∧ domainCalls ((GetProfile exampleHandlers : Gin Unit Unit).run allGood.world ()).trace
        = [.UserGetProfile ⟨0⟩ ⟨"42"⟩] :=
  ⟨by decide, by decide, rfl⟩

end HandlerTheorems

end LibraryAuth
